import Mathlib

set_option linter.unusedVariables false

/-!
Verification development for the PKI key/issuer storage layer and CRL
build/revocation engine of the `builtin/logical/pki` package.

The Go code is shallowly embedded: the key-value storage backend becomes a
record of typed association lists (one per key prefix), fallible Go calls
become `Except`-valued Lean functions, Go maps become association lists
whose iteration order is the deterministic first-encounter order, and the
cryptographic layer (x509 parsing, public-key comparison, signatures) is
abstracted by carrying parse results and key fingerprints as data.
-/

namespace VaultPki

/-- Go map read: first binding for the key, modelling `m[k]` comma-ok form. -/
def alookup {α β : Type} [DecidableEq α] : List (α × β) → α → Option β
  | [], _ => none
  | (k', v') :: rest, k => if k' = k then some v' else alookup rest k

/-- Go map write `m[k] = v`: replace the binding if present, else append. -/
def aupsert {α β : Type} [DecidableEq α] : List (α × β) → α → β → List (α × β)
  | [], k, v => [(k, v)]
  | (k', v') :: rest, k, v =>
    if k' = k then (k, v) :: rest else (k', v') :: aupsert rest k v

/-- Storage delete: remove every binding for the key. -/
def aerase {α β : Type} [DecidableEq α] : List (α × β) → α → List (α × β)
  | [], _ => []
  | (k', v') :: rest, k =>
    if k' = k then aerase rest k else (k', v') :: aerase rest k

/-- Longest string length in a list, used to manufacture fresh identifiers. -/
def maxStrLen (l : List String) : Nat := l.foldr (fun x m => max x.length m) 0

/-- Model of `uuid.GenerateUUID`: the spec's global-uniqueness invariant for
generated identifiers is realized by producing a string strictly longer than
every string in the avoid-list, hence distinct from all of them. -/
def freshStr (l : List String) : String := String.mk (List.replicate (maxStrLen l + 1) 'u')

/-- Model of `strings.TrimSpace`: drop leading and trailing whitespace
(structural recursion over the character list, so that concrete runs reduce
in the kernel). -/
def trimSpace (s : String) : String :=
  String.mk ((((s.data.dropWhile Char.isWhitespace).reverse.dropWhile
    Char.isWhitespace).reverse))

/-! ## Data model

Cryptographic material is abstracted: a public key is a fingerprint (`Nat`),
and an x509 certificate carries its parsed fields plus the fingerprint of the
key that signed it, so `CheckSignatureFrom` becomes a fingerprint check. -/

/-- Abstract public-key fingerprint (stands for the DER public key bytes). -/
abbrev PubKey := Nat

/-- Parsed x509 certificate, as used by the CRL engine.  `serial` is the
colon-separated lower-case hex form that `certutil.GetHexFormatted` would
produce for the certificate's serial number. -/
structure Certificate where
  rawSubject : String
  rawIssuer : String
  serial : String
  notAfter : Int
  isCA : Bool
  basicConstraintsValid : Bool
  pubKey : PubKey
  sigKey : PubKey
deriving DecidableEq, Repr

/-- Model of `x509.Certificate.CheckSignatureFrom`: the signature verifies
exactly when the certificate was signed by the parent's key. -/
def checkSignatureFrom (c parent : Certificate) : Bool := c.sigKey == parent.pubKey

/-- Parsed private-key material (`crypto.Signer`): its public fingerprint and
the private key type tag. -/
structure SignerInfo where
  pubKey : PubKey
  keyType : String
deriving DecidableEq, Repr

/-- PEM-format private-key text together with its parse result
(`certutil.ParsePEMKey`); `parsed = none` models unparseable material.
Distinct texts may parse to keys with equal public components (e.g. PKCS#1
versus PKCS#8 encodings of the same key). -/
structure PemKey where
  text : String
  parsed : Option SignerInfo
deriving DecidableEq, Repr

/-- PEM-format certificate text together with its parse result
(`pem.Decode` + `x509.ParseCertificate`) and the number of `-BEGIN `
occurrences in the text (`strings.Count`). -/
structure PemCert where
  text : String
  parsed : Option Certificate
  beginCount : Nat
deriving DecidableEq, Repr

/-- `keyEntry` from storage.go. -/
structure keyEntry where
  id : String
  name : String
  privateKeyType : String
  privateKey : PemKey
deriving DecidableEq, Repr

/-- `issuerEntry` from storage.go. -/
structure issuerEntry where
  id : String
  name : String
  keyId : String
  certificate : PemCert
  caChain : List String
  manualChain : List String
  serialNumber : String
  leafNotAfterBehavior : String
deriving DecidableEq, Repr

/-- Smallest Go int64 value, -2^63. -/
def int64Min : Int := -9223372036854775808

/-- Largest Go int64 value, 2^63 - 1. -/
def int64Max : Int := 9223372036854775807

/-- Two's-complement wrap of Go int64 arithmetic: the value reduced into
[-2^63, 2^63).  In particular `int64Wrap (int64Max + 1) = int64Min`. -/
def int64Wrap (x : Int) : Int :=
  (x + 9223372036854775808) % 18446744073709551616 - 9223372036854775808

/-- One evolution step of a stored CRL sequence counter inside `buildCRLs`:
either untouched, or replaced by the wrapped int64 increment that
`crlConfig.CRLNumberMap[crlIdentifier] += 1` performs. -/
def crlCounterStep (x y : Int) : Prop := y = x ∨ y = int64Wrap (x + 1)

/-- `localCRLConfigEntry` from storage.go: both Go maps become association
lists.  The `crlNumberMap` values model `int64` sequence numbers: the one
mutation the code performs on them (`+= 1`, crl_util.go line 354) is
embedded as `int64Wrap (n + 1)`, wrapping at `int64Max` as Go does. -/
structure localCRLConfigEntry where
  issuerIDCRLMap : List (String × String)
  crlNumberMap : List (String × Int)
deriving DecidableEq, Repr

/-- `keyConfigEntry` from storage.go (empty id = unset default). -/
structure keyConfigEntry where
  defaultKeyId : String
deriving DecidableEq, Repr

/-- `issuerConfigEntry` from storage.go (empty id = unset default). -/
structure issuerConfigEntry where
  defaultIssuerId : String
deriving DecidableEq, Repr

/-- `revocationInfo` from crl_util.go.  `certificateBytes` carries the parse
result of the stored certificate bytes; times are UTC seconds, with
`revocationTimeUTC = 0` modelling Go's zero `time.Time`. -/
structure revocationInfo where
  certificateBytes : Option Certificate
  revocationTime : Int
  revocationTimeUTC : Int
  certificateIssuer : String
deriving DecidableEq, Repr

/-- `pkix.RevokedCertificate`: serial (colon-hex form) and UTC revocation
time. -/
structure RevokedCertificate where
  serialNumber : String
  revocationTime : Int
deriving DecidableEq, Repr

/-- The structured content of a signed CRL document
(`x509.CreateRevocationList` output, DER encoding abstracted away). -/
structure CRLDocument where
  revokedCertificates : List RevokedCertificate
  number : Int
  thisUpdate : Int
  nextUpdate : Int
  signerPub : PubKey
deriving DecidableEq, Repr

/-- The mount's CRL configuration record (`config/crl`, read via `b.CRL`):
`expiry` is the raw duration string ("" when unset).  Following the
parse-results-as-data abstraction used for certificates and keys,
`expiryParsed` carries the result of `time.ParseDuration` on `expiry`:
`none` models a non-empty string the parser rejects. -/
structure CRLInfo where
  expiry : String
  expiryParsed : Option Int
  disable : Bool
deriving DecidableEq, Repr

/-- The key-value storage view of one PKI mount, one typed field per key
prefix of the external-interface table.  A `none` stored under `keys`,
`issuers`, `certs` or `revoked` models a record whose JSON (or DER) contents
fail to decode. -/
structure Storage where
  keys : List (String × Option keyEntry)
  issuers : List (String × Option issuerEntry)
  keyConfig : Option keyConfigEntry
  issuerConfig : Option issuerConfigEntry
  localCRLConfig : Option localCRLConfigEntry
  crlInfo : Option CRLInfo
  crls : List (String × CRLDocument)
  certs : List (String × Option Certificate)
  revoked : List (String × Option revocationInfo)
deriving DecidableEq, Repr

/-- The backend handle: the package-level CRL lifetime default and the
mount-tainted flag. -/
structure Backend where
  crlLifetime : Int
  tainted : Bool
deriving DecidableEq, Repr

/-- An empty mount's storage. -/
def storageEmpty : Storage :=
  { keys := [], issuers := [], keyConfig := none, issuerConfig := none,
    localCRLConfig := none, crlInfo := none, crls := [], certs := [], revoked := [] }

/-- The two error kinds of errutil plus plain `fmt.Errorf` errors. -/
inductive PkiError where
  | userError (msg : String)
  | internalError (msg : String)
  | goError (msg : String)
deriving DecidableEq, Repr

/-- Whether an `Except` result is an errutil.UserError. -/
def isUserErrorResult {α : Type} : Except PkiError α → Bool
  | .error (.userError _) => true
  | _ => false

/-! ## storage.go: key store -/

/-- `listKeys`: identifiers under the key prefix, in storage order. -/
def listKeys (s : Storage) : List String := s.keys.map Prod.fst

/-- `fetchKeyById`. -/
def fetchKeyById (s : Storage) (keyId : String) : Except PkiError keyEntry :=
  if keyId.length = 0 then
    .error (.internalError "unable to fetch pki key: empty key identifier")
  else
    match alookup s.keys keyId with
    | none => .error (.userError ("pki key id " ++ keyId ++ " does not exist"))
    | some none => .error (.internalError ("unable to decode pki key with id " ++ keyId))
    | some (some key) => .ok key

/-- `writeKey`: upsert keyed by the entry's own identifier. -/
def writeKey (s : Storage) (key : keyEntry) : Storage :=
  { s with keys := aupsert s.keys key.id (some key) }

/-- `getKeysConfig`: an absent singleton decodes to the zero value. -/
def getKeysConfig (s : Storage) : keyConfigEntry := s.keyConfig.getD { defaultKeyId := "" }

/-- `setKeysConfig`. -/
def setKeysConfig (s : Storage) (c : keyConfigEntry) : Storage := { s with keyConfig := some c }

/-- `deleteKey`: clear the default pointer first when it referenced this id,
then delete the record. -/
def deleteKey (s : Storage) (id : String) : Bool × Storage :=
  let config := getKeysConfig s
  if config.defaultKeyId = id then
    let s1 := setKeysConfig s { defaultKeyId := "" }
    (true, { s1 with keys := aerase s1.keys id })
  else
    (false, { s with keys := aerase s.keys id })

/-- Modelled from the spec: `isDefaultKeySet` is not under src (only its
callers are); per section 4.2 it reports whether the key config singleton
holds a nonempty default identifier. -/
def isDefaultKeySet (s : Storage) : Bool := (getKeysConfig s).defaultKeyId != ""

/-- Modelled from the spec: `updateDefaultKeyId` is not under src; it
persists the config singleton with the given default key identifier. -/
def updateDefaultKeyId (s : Storage) (id : String) : Storage :=
  setKeysConfig s { defaultKeyId := id }

/-- Model of `genKeyId`/`genUuid`: a fresh identifier distinct from every
stored key identifier (the spec's global-uniqueness invariant for random
UUIDs). -/
def genKeyId (s : Storage) : String := freshStr (listKeys s)

/-! ## storage.go: issuer store -/

/-- `listIssuers`. -/
def listIssuers (s : Storage) : List String := s.issuers.map Prod.fst

/-- `fetchIssuerById`. -/
def fetchIssuerById (s : Storage) (issuerId : String) : Except PkiError issuerEntry :=
  if issuerId.length = 0 then
    .error (.internalError "unable to fetch pki issuer: empty issuer identifier")
  else
    match alookup s.issuers issuerId with
    | none => .error (.userError ("pki issuer id " ++ issuerId ++ " does not exist"))
    | some none => .error (.internalError ("unable to decode pki issuer with id " ++ issuerId))
    | some (some issuer) => .ok issuer

/-- `issuerEntry.GetCertificate`: PEM-decode and parse the stored
certificate; the invalid-PEM, trailing-data and x509-parse failures are all
collapsed into `parsed = none`. -/
def getCertificate (i : issuerEntry) : Except PkiError Certificate :=
  match i.certificate.parsed with
  | none =>
    .error (.internalError ("unable to parse certificate from issuer: invalid PEM: " ++ i.id))
  | some c => .ok c

/-- `writeIssuer`. -/
def writeIssuer (s : Storage) (issuer : issuerEntry) : Storage :=
  { s with issuers := aupsert s.issuers issuer.id (some issuer) }

/-- `getIssuersConfig`. -/
def getIssuersConfig (s : Storage) : issuerConfigEntry :=
  s.issuerConfig.getD { defaultIssuerId := "" }

/-- `setIssuersConfig`. -/
def setIssuersConfig (s : Storage) (c : issuerConfigEntry) : Storage :=
  { s with issuerConfig := some c }

/-- `deleteIssuer`. -/
def deleteIssuer (s : Storage) (id : String) : Bool × Storage :=
  let config := getIssuersConfig s
  if config.defaultIssuerId = id then
    let s1 := setIssuersConfig s { defaultIssuerId := "" }
    (true, { s1 with issuers := aerase s1.issuers id })
  else
    (false, { s with issuers := aerase s.issuers id })

/-- Modelled from the spec: `isDefaultIssuerSet` is not under src; it reports
whether the issuer config singleton holds a nonempty default identifier. -/
def isDefaultIssuerSet (s : Storage) : Bool := (getIssuersConfig s).defaultIssuerId != ""

/-- Modelled from the spec: `updateDefaultIssuerId` is not under src; it
persists the config singleton with the given default issuer identifier. -/
def updateDefaultIssuerId (s : Storage) (id : String) : Storage :=
  setIssuersConfig s { defaultIssuerId := id }

/-- Model of `genIssuerId`: fresh against the stored issuer identifiers. -/
def genIssuerId (s : Storage) : String := freshStr (listIssuers s)

/-! ## storage.go: ImportLinker -/

/-- The deduplication scan of `importKey`: fetch each known key and compare
its private-key text byte-for-byte against the normalized input. -/
def importKeyScan (s : Storage) (t : String) : List String → Except PkiError (Option keyEntry)
  | [] => .ok none
  | id :: rest =>
    match fetchKeyById s id with
    | .error e => .error e
    | .ok existingKey =>
      if existingKey.privateKey.text = t then .ok (some existingKey)
      else importKeyScan s t rest

/-- The cross-link repair loop of `importKey`: for each issuer whose KeyID is
unset and whose certificate's public key equals the imported key's, set the
link and persist the issuer. -/
def linkIssuersToKey (pub : PubKey) (kid : String) :
    List String → Storage → Except PkiError Storage
  | [], s => .ok s
  | id :: rest, s =>
    match fetchIssuerById s id with
    | .error e => .error e
    | .ok existingIssuer =>
      if 0 < existingIssuer.keyId.length then linkIssuersToKey pub kid rest s
      else
        match getCertificate existingIssuer with
        | .error e => .error e
        | .ok cert =>
          if cert.pubKey = pub then
            linkIssuersToKey pub kid rest (writeIssuer s { existingIssuer with keyId := kid })
          else linkIssuersToKey pub kid rest s

/-- The key entry created by `importKey`'s creation path: fresh identifier,
the caller's name, the parsed key type, and the normalized material. -/
def mkKeyEntry (s : Storage) (keyValue : PemKey) (keyName : String)
    (keySigner : SignerInfo) : keyEntry :=
  { id := genKeyId s, name := keyName, privateKeyType := keySigner.keyType,
    privateKey := { keyValue with text := trimSpace keyValue.text ++ "\n" } }

/-- `importKey`: normalize, dedup-scan all keys, else create the entry,
repair issuer links, and promote to default when none was set. -/
def importKey (s : Storage) (keyValue : PemKey) (keyName : String) :
    Except PkiError (keyEntry × Bool × Storage) :=
  match importKeyScan s (trimSpace keyValue.text ++ "\n") (listKeys s) with
  | .error e => .error e
  | .ok (some existingKey) => .ok (existingKey, true, s)
  | .ok none =>
    match keyValue.parsed with
    | none => .error (.goError "unable to extract signer from pki key")
    | some keySigner =>
      match linkIssuersToKey keySigner.pubKey (genKeyId s) (listIssuers s)
          (writeKey s (mkKeyEntry s keyValue keyName keySigner)) with
      | .error e => .error e
      | .ok s2 =>
        if (listKeys s).isEmpty || !isDefaultKeySet s2 then
          .ok (mkKeyEntry s keyValue keyName keySigner, false,
               updateDefaultKeyId s2 (genKeyId s))
        else .ok (mkKeyEntry s keyValue keyName keySigner, false, s2)

/-- The deduplication scan of `importIssuer`: byte-for-byte comparison of the
stored certificate text against the normalized input. -/
def importIssuerScan (s : Storage) (t : String) :
    List String → Except PkiError (Option issuerEntry)
  | [] => .ok none
  | id :: rest =>
    match fetchIssuerById s id with
    | .error e => .error e
    | .ok existingIssuer =>
      if existingIssuer.certificate.text = t then .ok (some existingIssuer)
      else importIssuerScan s t rest

/-- The key-link loop of `importIssuer`: first stored key whose public key
equals the certificate's wins (loop breaks); returns the empty string when no
key matches. -/
def findKeyForCert (s : Storage) (pub : PubKey) : List String → Except PkiError String
  | [] => .ok ""
  | id :: rest =>
    match fetchKeyById s id with
    | .error e => .error e
    | .ok existingKey =>
      match existingKey.privateKey.parsed with
      | none => .error (.goError "unable to extract signer from stored pki key")
      | some signer =>
        if signer.pubKey = pub then .ok existingKey.id
        else findKeyForCert s pub rest

/-- Modelled from the spec: `rebuildIssuersChains` is not under src.  Per the
comment at its call site in `importIssuer`, with a non-nil reference issuer it
saves that issuer to storage; the CAChain recomputation itself is outside
every claim and is not modelled. -/
def rebuildIssuersChains (s : Storage) (issuer : issuerEntry) : Storage := writeIssuer s issuer

/-- The issuer entry created by `importIssuer`'s creation path: fresh
identifier, the caller's name, the resolved key link, the normalized
certificate material and the serial pulled out of the parsed certificate. -/
def mkIssuerEntry (s : Storage) (certValue : PemCert) (issuerName : String)
    (issuerCert : Certificate) (linkedKeyId : String) : issuerEntry :=
  { id := genIssuerId s, name := issuerName, keyId := linkedKeyId,
    certificate := { certValue with text := trimSpace certValue.text ++ "\n" },
    caChain := [], manualChain := [], serialNumber := trimSpace issuerCert.serial,
    leafNotAfterBehavior := "err" }

/-- `importIssuer`: normalize, dedup-scan all issuers, else validate the
certificate (single PEM blob, CA constraints), link at most one matching key,
persist, and promote to default when none was set. -/
def importIssuer (s : Storage) (certValue : PemCert) (issuerName : String) :
    Except PkiError (issuerEntry × Bool × Storage) :=
  match importIssuerScan s (trimSpace certValue.text ++ "\n") (listIssuers s) with
  | .error e => .error e
  | .ok (some existingIssuer) => .ok (existingIssuer, true, s)
  | .ok none =>
    if certValue.beginCount ≠ 1 then
      .error (.goError "bad issuer: potentially multiple PEM blobs in one certificate storage entry")
    else
      match certValue.parsed with
      | none => .error (.internalError "unable to parse certificate from issuer: invalid PEM")
      | some issuerCert =>
        if !(issuerCert.basicConstraintsValid && issuerCert.isCA) then
          .error (.userError "Refusing to import non-CA certificate")
        else
          match findKeyForCert s issuerCert.pubKey (listKeys s) with
          | .error e => .error e
          | .ok linkedKeyId =>
            if (listIssuers s).isEmpty ||
                !isDefaultIssuerSet
                  (rebuildIssuersChains s
                    (mkIssuerEntry s certValue issuerName issuerCert linkedKeyId)) then
              .ok (mkIssuerEntry s certValue issuerName issuerCert linkedKeyId, false,
                   updateDefaultIssuerId
                     (rebuildIssuersChains s
                       (mkIssuerEntry s certValue issuerName issuerCert linkedKeyId))
                     (genIssuerId s))
            else
              .ok (mkIssuerEntry s certValue issuerName issuerCert linkedKeyId, false,
                   rebuildIssuersChains s
                     (mkIssuerEntry s certValue issuerName issuerCert linkedKeyId))

/-! ## storage.go: CRL config singleton and CA bundles -/

/-- `getLocalCRLConfig`: load-or-default with both maps non-nil. -/
def getLocalCRLConfig (s : Storage) : localCRLConfigEntry :=
  s.localCRLConfig.getD { issuerIDCRLMap := [], crlNumberMap := [] }

/-- `setLocalCRLConfig`. -/
def setLocalCRLConfig (s : Storage) (m : localCRLConfigEntry) : Storage :=
  { s with localCRLConfig := some m }

/-- `certutil.CertBundle`, restricted to the fields this subsystem touches. -/
structure CertBundle where
  certificate : PemCert
  caChain : List String
  serialNumber : String
  privateKeyType : String
  privateKey : Option PemKey
deriving DecidableEq, Repr

/-- `fetchCertBundleByIssuerId`. -/
def fetchCertBundleByIssuerId (s : Storage) (id : String) (loadKey : Bool) :
    Except PkiError (issuerEntry × CertBundle) :=
  match fetchIssuerById s id with
  | .error e => .error e
  | .ok issuer =>
    let bundle : CertBundle :=
      { certificate := issuer.certificate, caChain := issuer.caChain,
        serialNumber := issuer.serialNumber, privateKeyType := "", privateKey := none }
    if loadKey && issuer.keyId != "" then
      match fetchKeyById s issuer.keyId with
      | .error e => .error e
      | .ok key =>
        .ok (issuer, { bundle with privateKeyType := key.privateKeyType,
                                   privateKey := some key.privateKey })
    else .ok (issuer, bundle)

/-- A CA bundle parsed down to usable signing material. -/
structure ParsedCABundle where
  certificate : Certificate
  privateKey : SignerInfo
deriving DecidableEq, Repr

/-- Modelled from the spec: `parseCABundle` is not under src; it parses the
bundle's certificate and private key into signing material, failing when
either is absent or unparseable. -/
def parseCABundle (bundle : CertBundle) : Except PkiError ParsedCABundle :=
  match bundle.certificate.parsed with
  | none => .error (.internalError "unable to parse CA certificate in bundle")
  | some cert =>
    match bundle.privateKey with
    | none => .error (.internalError "no private key in CA bundle")
    | some pk =>
      match pk.parsed with
      | none => .error (.internalError "unable to parse private key in CA bundle")
      | some signer => .ok { certificate := cert, privateKey := signer }

/-! ## crl_util.go: single-CRL construction -/

/-- The CA-fetch error wrapping of `buildCRL`: user errors stay
user-attributable, everything else becomes internal. -/
def mapCAErr : PkiError → PkiError
  | .userError m => .userError ("could not fetch the CA certificate: " ++ m)
  | _ => .internalError "error fetching CA certificate"

/-- The `WRITE` tail of `buildCRL`: fetch the representative issuer's signing
bundle, parse it, build the revocation-list template and persist the signed
document under `crls/<identifier>`. -/
def buildCRLWrite (b : Backend) (s : Storage) (thisIssuerId : String)
    (revokedCerts : List RevokedCertificate) (identifier : String) (crlNumber : Int)
    (now crlLifetime : Int) : Except PkiError Storage :=
  match fetchCertBundleByIssuerId s thisIssuerId true with
  | .error e => .error (mapCAErr e)
  | .ok pr =>
    match parseCABundle pr.2 with
    | .error e => .error (mapCAErr e)
    | .ok signingBundle =>
      let doc : CRLDocument :=
        { revokedCertificates := revokedCerts, number := crlNumber,
          thisUpdate := now, nextUpdate := now + crlLifetime,
          signerPub := signingBundle.certificate.pubKey }
      .ok { s with crls := aupsert s.crls identifier doc }

/-- The expiry resolution of `buildCRL` (crl_util.go lines 479-487): the
package default, overridden by a configured non-empty duration string; a
non-empty string that does not parse is an InternalError — raised before the
disable flag is consulted. -/
def resolveCRLLifetime (b : Backend) (ci : CRLInfo) : Except PkiError Int :=
  if ci.expiry ≠ "" then
    match ci.expiryParsed with
    | none => .error (.internalError ("error parsing CRL duration of " ++ ci.expiry))
    | some d => .ok d
  else .ok b.crlLifetime

/-- `buildCRL`: resolve the expiry override (its parse error precedes every
other check), then honor the disable flag; disabled and not forced skips
entirely, disabled but forced writes an empty list. -/
def buildCRL (b : Backend) (s : Storage) (forceNew : Bool) (thisIssuerId : String)
    (revoked : List RevokedCertificate) (identifier : String) (crlNumber : Int) (now : Int) :
    Except PkiError Storage :=
  match s.crlInfo with
  | some ci =>
    match resolveCRLLifetime b ci with
    | .error e => .error e
    | .ok crlLifetime =>
      if ci.disable then
        if !forceNew then .ok s
        else buildCRLWrite b s thisIssuerId [] identifier crlNumber now crlLifetime
      else buildCRLWrite b s thisIssuerId revoked identifier crlNumber now crlLifetime
  | none => buildCRLWrite b s thisIssuerId revoked identifier crlNumber now b.crlLifetime

/-! ## crl_util.go: revoked-certificate attribution -/

/-- Append one revoked certificate to an issuer's bucket of the
`revokedCertsMap`. -/
def appendToBucket (m : List (String × List RevokedCertificate)) (k : String)
    (c : RevokedCertificate) : List (String × List RevokedCertificate) :=
  aupsert m k ((alookup m k).getD [] ++ [c])

/-- The issuer-search loop of `getRevokedCertEntries`: first issuer whose
subject equals the revoked certificate's issuer field and whose key verifies
its signature. -/
def findParent (cert : Certificate) : List (String × Certificate) → Option String
  | [] => none
  | (issuerId, issuerCert) :: rest =>
    if (cert.rawIssuer == issuerCert.rawSubject) && checkSignatureFrom cert issuerCert then
      some issuerId
    else findParent cert rest

/-- The per-serial loop of `getRevokedCertEntries`, carrying the storage (the
self-healing attribution cache writes back mid-loop); an error keeps the
partial storage, as the Go code's in-place writes do. -/
def getRevokedCertEntriesLoop (certMap : List (String × Certificate)) :
    List String → Storage → List RevokedCertificate →
    List (String × List RevokedCertificate) →
    Storage × Except PkiError (List RevokedCertificate × List (String × List RevokedCertificate))
  | [], s, unassignedCerts, revokedCertsMap => (s, .ok (unassignedCerts, revokedCertsMap))
  | serial :: rest, s, unassignedCerts, revokedCertsMap =>
    match alookup s.revoked serial with
    | none =>
      (s, .error (.internalError ("revoked certificate entry for serial " ++ serial ++ " is nil")))
    | some none =>
      (s, .error (.internalError ("error decoding revocation entry for serial " ++ serial)))
    | some (some revInfo) =>
      match revInfo.certificateBytes with
      | none =>
        (s, .error (.internalError
          ("unable to parse stored revoked certificate with serial " ++ serial)))
      | some revokedCert =>
        let newRevCert : RevokedCertificate :=
          { serialNumber := revokedCert.serial,
            revocationTime :=
              if revInfo.revocationTimeUTC ≠ 0 then revInfo.revocationTimeUTC
              else revInfo.revocationTime }
        if 0 < revInfo.certificateIssuer.length ∧
            (alookup certMap revInfo.certificateIssuer).isSome then
          getRevokedCertEntriesLoop certMap rest s unassignedCerts
            (appendToBucket revokedCertsMap revInfo.certificateIssuer newRevCert)
        else
          match findParent revokedCert certMap with
          | none =>
            getRevokedCertEntriesLoop certMap rest s (unassignedCerts ++ [newRevCert])
              revokedCertsMap
          | some issuerId =>
            getRevokedCertEntriesLoop certMap rest
              { s with revoked :=
                  (aupsert s.revoked serial (some { revInfo with certificateIssuer := issuerId })) }
              unassignedCerts (appendToBucket revokedCertsMap issuerId newRevCert)

/-- `getRevokedCertEntries`: partition every revocation record into
per-issuer buckets and the unassigned pool. -/
def getRevokedCertEntries (s : Storage) (certMap : List (String × Certificate)) :
    Storage × Except PkiError (List RevokedCertificate × List (String × List RevokedCertificate)) :=
  getRevokedCertEntriesLoop certMap (s.revoked.map Prod.fst) s [] []

/-! ## crl_util.go: buildCRLs -/

/-- The issuer-collection loop of `buildCRLs`: fetch each issuer, skip those
with no linked key, parse the remaining certificates.  Errors are wrapped
into plain build errors as `buildCRLs` does. -/
def collectIssuerInfo (s : Storage) :
    List String → Except PkiError (List (String × issuerEntry × Certificate))
  | [] => .ok []
  | issuer :: rest =>
    match fetchIssuerById s issuer with
    | .error _ =>
      .error (.goError ("error building CRLs: unable to fetch specified issuer (" ++ issuer ++ ")"))
    | .ok thisEntry =>
      if thisEntry.keyId.length = 0 then collectIssuerInfo s rest
      else
        match getCertificate thisEntry with
        | .error _ =>
          .error (.goError ("error building CRLs: unable to parse issuer (" ++ issuer ++ ") certificate"))
        | .ok thisCert =>
          match collectIssuerInfo s rest with
          | .error e => .error e
          | .ok tail => .ok ((issuer, thisEntry, thisCert) :: tail)

/-- Insert one issuer into its (key id, subject) bucket. -/
def addToGroup (gs : List ((String × String) × List String)) (k : String × String)
    (i : String) : List ((String × String) × List String) :=
  aupsert gs k ((alookup gs k).getD [] ++ [i])

/-- The `keySubjectIssuersMap` of `buildCRLs`: the Go double map
keyID → subject → issuer list becomes an association list keyed by the pair,
in first-encounter order. -/
def groupByKeySubject (l : List (String × issuerEntry × Certificate)) :
    List ((String × String) × List String) :=
  l.foldl (fun gs x => addToGroup gs (x.2.1.keyId, x.2.2.rawIssuer) x.1) []

/-- The running state of the per-group member scan in `buildCRLs`. -/
structure GroupScan where
  revokedCerts : List RevokedCertificate
  representative : String
  crlIdentifier : String
  crlIdIssuer : String
deriving DecidableEq, Repr

/-- The default-issuer step of the member scan: fold the unassigned pool in
and make the default the representative. -/
def scanDefaultStep (defaultIssuerId : String) (unassignedCerts : List RevokedCertificate)
    (issuerId : String) (acc : GroupScan) : GroupScan :=
  if issuerId = defaultIssuerId then
    { acc with
      revokedCerts :=
        if 0 < unassignedCerts.length then acc.revokedCerts ++ unassignedCerts
        else acc.revokedCerts,
      representative := issuerId }
  else acc

/-- The bucket-union step of the member scan. -/
def scanBucketStep (revokedCertsMap : List (String × List RevokedCertificate))
    (issuerId : String) (acc : GroupScan) : GroupScan :=
  match alookup revokedCertsMap issuerId with
  | some thisRevoked =>
    if 0 < thisRevoked.length then
      { acc with revokedCerts := acc.revokedCerts ++ thisRevoked }
    else acc
  | none => acc

/-- The member scan of one (key id, subject) group in `buildCRLs`: fold the
unassigned pool in at the default issuer, union the members' buckets, and
resolve the group's CRL identifier, failing on a conflicting assignment. -/
def groupScan (defaultIssuerId : String) (unassignedCerts : List RevokedCertificate)
    (revokedCertsMap : List (String × List RevokedCertificate))
    (issuerIDCRLMap : List (String × String)) :
    List String → GroupScan → Except PkiError GroupScan
  | [], acc => .ok acc
  | issuerId :: rest, acc =>
    match alookup issuerIDCRLMap issuerId with
    | some thisCRLId =>
      if 0 < thisCRLId.length then
        if 0 < (scanBucketStep revokedCertsMap issuerId
              (scanDefaultStep defaultIssuerId unassignedCerts issuerId acc)).crlIdentifier.length ∧
            (scanBucketStep revokedCertsMap issuerId
              (scanDefaultStep defaultIssuerId unassignedCerts issuerId acc)).crlIdentifier ≠
              thisCRLId then
          .error (.goError
            "error building CRLs: two issuers with same keys and subjects have different internal CRL IDs")
        else
          groupScan defaultIssuerId unassignedCerts revokedCertsMap issuerIDCRLMap rest
            { scanBucketStep revokedCertsMap issuerId
                (scanDefaultStep defaultIssuerId unassignedCerts issuerId acc) with
              crlIdentifier := thisCRLId, crlIdIssuer := issuerId }
      else
        groupScan defaultIssuerId unassignedCerts revokedCertsMap issuerIDCRLMap rest
          (scanBucketStep revokedCertsMap issuerId
            (scanDefaultStep defaultIssuerId unassignedCerts issuerId acc))
    | none =>
      groupScan defaultIssuerId unassignedCerts revokedCertsMap issuerIDCRLMap rest
        (scanBucketStep revokedCertsMap issuerId
          (scanDefaultStep defaultIssuerId unassignedCerts issuerId acc))

/-- Model of `genCRLId`: a fresh CRL identifier, distinct from every
identifier already known to the cluster-local CRL configuration. -/
def genCRLId (cfg : localCRLConfigEntry) : String :=
  freshStr (cfg.crlNumberMap.map Prod.fst ++ cfg.issuerIDCRLMap.map Prod.snd)

/-- The tail of one group's processing in `buildCRLs`, after the group's CRL
identifier has been resolved (or minted, with its counter initialized to 1,
already reflected in `cfg1`): record the identifier for every member, read
the sequence number, unconditionally advance it with the wrapping int64
increment, and build the group's CRL with the pre-increment number.  Note
the member-map update cannot change the number read, so the read is
expressed against `cfg1` directly. -/
def assignGroup (b : Backend) (now : Int) (forceNew : Bool) (s : Storage)
    (issuersSet : List String) (representative : String)
    (revokedCerts : List RevokedCertificate) (crlIdentifier : String)
    (cfg1 : localCRLConfigEntry) : Except PkiError (Storage × localCRLConfigEntry) :=
  match buildCRL b s forceNew representative revokedCerts crlIdentifier
      ((alookup cfg1.crlNumberMap crlIdentifier).getD 0) now with
  | .error _ => .error (.goError "error building CRLs: unable to build CRL for issuer")
  | .ok s' =>
    .ok (s',
      { issuerIDCRLMap :=
          issuersSet.foldl (fun m i => aupsert m i crlIdentifier) cfg1.issuerIDCRLMap,
        crlNumberMap :=
          aupsert cfg1.crlNumberMap crlIdentifier
            (int64Wrap ((alookup cfg1.crlNumberMap crlIdentifier).getD 0 + 1)) })

/-- Processing of one (key id, subject) group in `buildCRLs`: scan members,
mint a fresh identifier (starting its counter at 1) when none is mapped, and
hand over to `assignGroup`. -/
def processOneGroup (b : Backend) (now : Int) (forceNew : Bool) (defaultIssuerId : String)
    (unassignedCerts : List RevokedCertificate)
    (revokedCertsMap : List (String × List RevokedCertificate))
    (s : Storage) (crlConfig : localCRLConfigEntry) (issuersSet : List String) :
    Except PkiError (Storage × localCRLConfigEntry) :=
  match issuersSet with
  | [] => .ok (s, crlConfig)
  | rep :: _ =>
    match groupScan defaultIssuerId unassignedCerts revokedCertsMap crlConfig.issuerIDCRLMap
        issuersSet
        { revokedCerts := [], representative := rep, crlIdentifier := "", crlIdIssuer := "" } with
    | .error e => .error e
    | .ok scan =>
      if scan.crlIdentifier.length = 0 then
        assignGroup b now forceNew s issuersSet scan.representative scan.revokedCerts
          (genCRLId crlConfig)
          { crlConfig with
            crlNumberMap := aupsert crlConfig.crlNumberMap (genCRLId crlConfig) 1 }
      else
        assignGroup b now forceNew s issuersSet scan.representative scan.revokedCerts
          scan.crlIdentifier crlConfig

/-- The group loop of `buildCRLs`; an error keeps the state reached so far
(documents persisted for earlier groups stay, no rollback). -/
def processGroups (b : Backend) (now : Int) (forceNew : Bool) (defaultIssuerId : String)
    (unassignedCerts : List RevokedCertificate)
    (revokedCertsMap : List (String × List RevokedCertificate)) :
    List (List String) → Storage → localCRLConfigEntry →
    Storage × localCRLConfigEntry × Option PkiError
  | [], s, cfg => (s, cfg, none)
  | g :: rest, s, cfg =>
    match processOneGroup b now forceNew defaultIssuerId unassignedCerts revokedCertsMap s cfg g with
    | .error e => (s, cfg, some e)
    | .ok (s', cfg') =>
      processGroups b now forceNew defaultIssuerId unassignedCerts revokedCertsMap rest s' cfg'

/-- `buildCRLs`: list and group issuers, attribute revoked certificates,
process each group, and persist the updated cluster-local CRL config once at
the end on success. -/
def buildCRLs (b : Backend) (s : Storage) (forceNew : Bool) (now : Int) :
    Storage × Option PkiError :=
  let issuers := listIssuers s
  let config := getIssuersConfig s
  match collectIssuerInfo s issuers with
  | .error e => (s, some e)
  | .ok issuerInfo =>
    let issuerIDCertMap := issuerInfo.map (fun x => (x.1, x.2.2))
    let groups := (groupByKeySubject issuerInfo).map Prod.snd
    let crlConfig := getLocalCRLConfig s
    match getRevokedCertEntries s issuerIDCertMap with
    | (s1, .error e) => (s1, some e)
    | (s1, .ok (unassignedCerts, revokedCertsMap)) =>
      match processGroups b now forceNew config.defaultIssuerId unassignedCerts revokedCertsMap
          groups s1 crlConfig with
      | (s2, _, some e) => (s2, some e)
      | (s2, cfg2, none) => (setLocalCRLConfig s2 cfg2, none)

/-! ## crl_util.go: crlBuilder scheduling -/

/-- `_doRebuild`: inside the critical section, build when the pending flag is
set or the caller ignores it, folding the flag into the effective force and
clearing it afterward (even when the build errors). -/
def _doRebuild (forceRebuild : Bool) (b : Backend) (s : Storage)
    (forceNew ignoreForceFlag : Bool) (now : Int) : Bool × Storage × Option PkiError :=
  if forceRebuild || ignoreForceFlag then
    let myForceNew := forceRebuild || forceNew
    let r := buildCRLs b s myForceNew now
    (false, r.1, r.2)
  else (forceRebuild, s, none)

/-- `rebuild`: called by writers; always executes (`_ignoreForceFlag`). -/
def rebuild (forceRebuild : Bool) (b : Backend) (s : Storage) (forceNew : Bool) (now : Int) :
    Bool × Storage × Option PkiError :=
  _doRebuild forceRebuild b s forceNew true now

/-- `rebuildIfForced`: called by readers; executes only when the pending flag
is observed set (`_enforceForceFlag`). -/
def rebuildIfForced (forceRebuild : Bool) (b : Backend) (s : Storage) (now : Int) :
    Bool × Storage × Option PkiError :=
  if forceRebuild then _doRebuild forceRebuild b s true false now
  else (forceRebuild, s, none)

/-! ## crl_util.go: revocation workflow -/

/-- Lower-case a string and replace one character by another, the building
block of serial normalization. -/
def lowerReplace (a c : Char) (s : String) : String :=
  String.mk (s.data.map (fun x => let x := x.toLower; if x = a then c else x))

/-- Modelled from the spec: `normalizeSerial` is not under src; revocation
records are keyed by the lower-cased serial with colons replaced by
dashes. -/
def normalizeSerial (serial : String) : String := lowerReplace ':' '-' serial

/-- The colon-form serial computed inside `revokeCert`. -/
def toColonSerial (serial : String) : String := lowerReplace '-' ':' serial

/-- Modelled from the spec: `fetchCAInfo` is not under src; it resolves the
default issuer reference, loads its bundle with the signing key and parses
it, failing with a user error when no default is configured. -/
def fetchCAInfo (s : Storage) : Except PkiError ParsedCABundle :=
  let config := getIssuersConfig s
  if config.defaultIssuerId = "" then
    .error (.userError "no default issuer currently configured")
  else
    match fetchCertBundleByIssuerId s config.defaultIssuerId true with
    | .error e => .error e
    | .ok (_, bundle) => parseCABundle bundle

/-- The caller-visible outcome of `revokeCert` (a nil response, an error
response, or the revocation-time data response). -/
inductive RevokeOutcome where
  | nilResponse
  | errorResponse (msg : String)
  | dataResponse (revocationTime : Int) (utc : Option Int)
deriving DecidableEq, Repr

/-- The tail of `revokeCert`: trigger a non-forced rebuild and assemble the
revocation-time response. -/
def finishRevoke (b : Backend) (forceRebuild : Bool) (s : Storage)
    (revInfo : revocationInfo) (now : Int) :
    Except PkiError (RevokeOutcome × Bool × Storage) :=
  match rebuild forceRebuild b s false now with
  | (f', s', some (.userError m)) =>
    .ok (.errorResponse ("Error during CRL building: " ++ m), f', s')
  | (_, _, some e) => .error e
  | (f', s', none) =>
    .ok (.dataResponse revInfo.revocationTime
          (if revInfo.revocationTimeUTC ≠ 0 then some revInfo.revocationTimeUTC else none),
        f', s')

/-- `revokeCert`: guard on taint, reject revoking the CA itself, reuse an
existing revocation record, skip expired or lease-revoked CA certificates,
else persist a new record and rebuild. -/
def revokeCert (b : Backend) (forceRebuild : Bool) (s : Storage) (serial : String)
    (fromLease : Bool) (now : Int) : Except PkiError (RevokeOutcome × Bool × Storage) :=
  if b.tainted then .ok (.nilResponse, forceRebuild, s)
  else
    match fetchCAInfo s with
    | .error (.userError m) =>
      .ok (.errorResponse ("could not fetch the CA certificate: " ++ m), forceRebuild, s)
    | .error e => .error e
    | .ok signingBundle =>
      if toColonSerial serial = signingBundle.certificate.serial then
        .ok (.errorResponse "adding CA to CRL is not allowed", forceRebuild, s)
      else
        match alookup s.revoked (normalizeSerial serial) with
        | some none => .error (.goError "error decoding existing revocation info")
        | some (some revInfo) => finishRevoke b forceRebuild s revInfo now
        | none =>
          match alookup s.certs (normalizeSerial serial) with
          | none =>
            if fromLease then .ok (.nilResponse, forceRebuild, s)
            else
              .ok (.errorResponse ("certificate with serial " ++ serial ++ " not found"),
                  forceRebuild, s)
          | some none => .error (.goError "error parsing certificate")
          | some (some cert) =>
            if cert.notAfter < now + 2 then .ok (.nilResponse, forceRebuild, s)
            else if cert.isCA && fromLease then .ok (.nilResponse, forceRebuild, s)
            else
              let revInfo : revocationInfo :=
                { certificateBytes := some cert, revocationTime := now,
                  revocationTimeUTC := now, certificateIssuer := "" }
              let s1 :=
                { s with revoked := aupsert s.revoked (normalizeSerial serial) (some revInfo) }
              finishRevoke b forceRebuild s1 revInfo now

/-! ## Concrete fixtures used by witnesses and counterexamples -/

/-- A self-signed CA certificate fixture. -/
def certFix : Certificate :=
  { rawSubject := "S", rawIssuer := "S", serial := "aa", notAfter := 100,
    isCA := true, basicConstraintsValid := true, pubKey := 1, sigKey := 1 }

/-- A key entry fixture matching `certFix`'s public key. -/
def keyFix : keyEntry :=
  { id := "k", name := "n1", privateKeyType := "rsa",
    privateKey := { text := "K\n", parsed := some { pubKey := 1, keyType := "rsa" } } }

/-- An issuer entry fixture linked to `keyFix`. -/
def issuerFix : issuerEntry :=
  { id := "i", name := "root", keyId := "k",
    certificate := { text := "C\n", parsed := some certFix, beginCount := 1 },
    caChain := [], manualChain := [], serialNumber := "aa", leafNotAfterBehavior := "err" }

/-- A mount with one linked key/issuer pair, both configured as defaults. -/
def sFix : Storage :=
  { keys := [("k", some keyFix)], issuers := [("i", some issuerFix)],
    keyConfig := some { defaultKeyId := "k" },
    issuerConfig := some { defaultIssuerId := "i" },
    localCRLConfig := none, crlInfo := none, crls := [], certs := [], revoked := [] }

/-- A backend fixture. -/
def bFix : Backend := { crlLifetime := 100, tainted := false }

/-- An already-expired leaf certificate signed by `certFix`'s key. -/
def certExpiredFix : Certificate :=
  { rawSubject := "L", rawIssuer := "S", serial := "bb", notAfter := 0,
    isCA := false, basicConstraintsValid := true, pubKey := 9, sigKey := 1 }

/-- `sFix` with one active (non-revoked) expired certificate record. -/
def sFixExpired : Storage := { sFix with certs := [("ser1", some certExpiredFix)] }

/-- `sFix` with CRL building disabled. -/
def sFixDisabled : Storage :=
  { sFix with crlInfo := some { expiry := "", expiryParsed := none, disable := true } }

/-- `sFix` with CRL building disabled and a non-empty duration string that
`time.ParseDuration` rejects. -/
def sFixBadExpiry : Storage :=
  { sFix with crlInfo := some { expiry := "bogus", expiryParsed := none, disable := true } }

/-- Every stored decodable issuer record sits under the storage key equal to
its own identifier field — the invariant `writeIssuer` maintains. -/
def issuersWellKeyed (s : Storage) : Prop :=
  ∀ j entry, alookup s.issuers j = some (some entry) → entry.id = j

/-- The normalized private-key texts of all decodable stored key entries. -/
def keyTexts (s : Storage) : List String :=
  (s.keys.filterMap Prod.snd).map (fun k => k.privateKey.text)

/-- How many stored decodable key entries hold a private key whose public
fingerprint equals the given one. -/
def countKeysWithPub (s : Storage) (pub : PubKey) : Nat :=
  (s.keys.filterMap Prod.snd).countP
    (fun k =>
      match k.privateKey.parsed with
      | some si => si.pubKey == pub
      | none => false)

/-- Unnormalized key material for the C5 witness. -/
def kPemC5 : PemKey := { text := "K1", parsed := some { pubKey := 7, keyType := "rsa" } }

/-- The entry `importKey storageEmpty kPemC5 "n1"` creates. -/
def keyEntryC5 : keyEntry :=
  { id := "u", name := "n1", privateKeyType := "rsa",
    privateKey := { text := "K1\n", parsed := some { pubKey := 7, keyType := "rsa" } } }

/-- The storage after that first key import. -/
def storC5 : Storage :=
  { storageEmpty with
    keys := [("u", some keyEntryC5)],
    keyConfig := some { defaultKeyId := "u" } }

/-- A CA certificate for the C5/C6 issuer-side witnesses. -/
def certC5 : Certificate :=
  { rawSubject := "X", rawIssuer := "X", serial := "cc", notAfter := 50, isCA := true,
    basicConstraintsValid := true, pubKey := 77, sigKey := 77 }

/-- Unnormalized certificate material for the C5 witness. -/
def cPemC5 : PemCert := { text := "C1", parsed := some certC5, beginCount := 1 }

/-- The entry `importIssuer storageEmpty cPemC5 "n1"` creates. -/
def issuerEntryC5 : issuerEntry :=
  { id := "u", name := "n1", keyId := "",
    certificate := { text := "C1\n", parsed := some certC5, beginCount := 1 },
    caChain := [], manualChain := [], serialNumber := "cc", leafNotAfterBehavior := "err" }

/-- The storage after that first issuer import. -/
def storIssC5 : Storage :=
  { storageEmpty with
    issuers := [("u", some issuerEntryC5)],
    issuerConfig := some { defaultIssuerId := "u" } }

/-- First C6 key: PKCS#1-style encoding of a private key (public
fingerprint 5). -/
def kPemC6a : PemKey := { text := "A", parsed := some { pubKey := 5, keyType := "rsa" } }

/-- Second C6 key: a byte-distinct encoding of key material with the same
public fingerprint 5 (e.g. the PKCS#8 form of the same key). -/
def kPemC6b : PemKey := { text := "B", parsed := some { pubKey := 5, keyType := "rsa" } }

/-- The entry created by the first C6 import. -/
def keyC6a : keyEntry :=
  { id := "u", name := "n1", privateKeyType := "rsa",
    privateKey := { text := "A\n", parsed := some { pubKey := 5, keyType := "rsa" } } }

/-- The storage after the first C6 import. -/
def storC6a : Storage :=
  { storageEmpty with
    keys := [("u", some keyC6a)],
    keyConfig := some { defaultKeyId := "u" } }

/-- The entry created by the second C6 import. -/
def keyC6b : keyEntry :=
  { id := "uu", name := "n2", privateKeyType := "rsa",
    privateKey := { text := "B\n", parsed := some { pubKey := 5, keyType := "rsa" } } }

/-- The storage after the second C6 import: two stored keys for the same
public key. -/
def storC6b : Storage :=
  { storageEmpty with
    keys := [("u", some keyC6a), ("uu", some keyC6b)],
    keyConfig := some { defaultKeyId := "u" } }

/-- A second key whose public fingerprint matches no stored certificate,
used by the C6 witness. -/
def kPemC6w : PemKey := { text := "Z", parsed := some { pubKey := 42, keyType := "rsa" } }

/-- `sFix` with a cluster-local CRL config already mapping issuer "i" to CRL
"c0" with next sequence number 3. -/
def sFixCfg : Storage :=
  { sFix with
    localCRLConfig := some { issuerIDCRLMap := [("i", "c0")], crlNumberMap := [("c0", 3)] } }

/-- `sFix` with its issuer mapped to the CRL identifier "c0" whose sequence
counter stands at MaxInt64, the wrap point of Go's int64 increment. -/
def sMaxC1 : Storage :=
  { sFix with
    localCRLConfig := some { issuerIDCRLMap := [("i", "c0")],
                             crlNumberMap := [("c0", int64Max)] } }

/-- Result storage of processing the single group ["i"] against `sFix` with
an empty CRL config: the first document carries Number 1. -/
def sC1groupOut : Storage :=
  { sFix with
    crls := [("u", { revokedCertificates := [], number := 1, thisUpdate := 10,
                     nextUpdate := 110, signerPub := 1 })] }

/-- Resulting cluster-local CRL config of that group processing. -/
def cfgC1out : localCRLConfigEntry :=
  { issuerIDCRLMap := [("i", "u")], crlNumberMap := [("u", 2)] }

/-- A revoked certificate no stored issuer can verify (orphaned issuer). -/
def certOrphan : Certificate :=
  { rawSubject := "O", rawIssuer := "QQ", serial := "dd", notAfter := 99, isCA := false,
    basicConstraintsValid := true, pubKey := 8, sigKey := 9 }

/-- Its revocation record, with no cached attribution. -/
def revC10 : revocationInfo :=
  { certificateBytes := some certOrphan, revocationTime := 5, revocationTimeUTC := 5,
    certificateIssuer := "" }

/-- `sFix` with no configured default issuer and one orphaned revocation. -/
def sC10 : Storage := { sFix with issuerConfig := none, revoked := [("dd", some revC10)] }

/-- The entry `importKey sFix kPemC6w "n2"` creates. -/
def keyC6w : keyEntry :=
  { id := "uu", name := "n2", privateKeyType := "rsa",
    privateKey := { text := "Z\n", parsed := some { pubKey := 42, keyType := "rsa" } } }

/-- `sFix` after importing `kPemC6w`: the linked issuer is untouched. -/
def sFixC6w : Storage :=
  { sFix with keys := [("k", some keyFix), ("uu", some keyC6w)] }

/-- A second issuer entry sharing `issuerFix`'s key link and certificate. -/
def issuerFix2 : issuerEntry :=
  { id := "i2", name := "root2", keyId := "k",
    certificate := { text := "C\n", parsed := some certFix, beginCount := 1 },
    caChain := [], manualChain := [], serialNumber := "aa", leafNotAfterBehavior := "err" }

/-- Two issuers with the same key and subject, already mapped to the distinct
CRL identifiers "ca" and "cb" in the cluster-local CRL configuration. -/
def storC4 : Storage :=
  { sFix with
    issuers := [("i", some issuerFix), ("i2", some issuerFix2)],
    localCRLConfig := some { issuerIDCRLMap := [("i", "ca"), ("i2", "cb")],
                             crlNumberMap := [("ca", 3), ("cb", 7)] } }

/-- The issuer information `buildCRLs` collects over `storC4`. -/
def infoC4 : List (String × issuerEntry × Certificate) :=
  [("i", issuerFix, certFix), ("i2", issuerFix2, certFix)]

theorem alookup_eq_none_of_not_mem {α β : Type} [DecidableEq α]
    (l : List (α × β)) (k : α) (h : k ∉ l.map Prod.fst) : alookup l k = none := by
  induction l with
  | nil => rfl
  | cons hd tl ih =>
    simp only [List.map_cons, List.mem_cons, not_or] at h
    simp only [alookup]
    rw [if_neg (fun he => h.1 he.symm)]
    exact ih h.2

theorem alookup_append_left {α β : Type} [DecidableEq α]
    (l₁ l₂ : List (α × β)) (k : α) (v : β) (h : alookup l₁ k = some v) :
    alookup (l₁ ++ l₂) k = some v := by
  induction l₁ with
  | nil => simp [alookup] at h
  | cons hd tl ih =>
    simp only [alookup] at h ⊢
    by_cases he : hd.1 = k
    · simpa [he] using h
    · rw [if_neg he] at h ⊢
      exact ih h

theorem alookup_append_right {α β : Type} [DecidableEq α]
    (l₁ l₂ : List (α × β)) (k : α) (h : alookup l₁ k = none) :
    alookup (l₁ ++ l₂) k = alookup l₂ k := by
  induction l₁ with
  | nil => rfl
  | cons hd tl ih =>
    simp only [alookup] at h ⊢
    by_cases he : hd.1 = k
    · simp [he] at h
    · rw [if_neg he] at h ⊢
      exact ih h

theorem aupsert_of_not_mem {α β : Type} [DecidableEq α]
    (l : List (α × β)) (k : α) (v : β) (h : k ∉ l.map Prod.fst) :
    aupsert l k v = l ++ [(k, v)] := by
  induction l with
  | nil => rfl
  | cons hd tl ih =>
    simp only [List.map_cons, List.mem_cons, not_or] at h
    simp only [aupsert]
    rw [if_neg (fun he => h.1 he.symm)]
    rw [ih h.2]
    rfl

theorem alookup_aupsert_self {α β : Type} [DecidableEq α]
    (l : List (α × β)) (k : α) (v : β) : alookup (aupsert l k v) k = some v := by
  induction l with
  | nil => simp [aupsert, alookup]
  | cons hd tl ih =>
    simp only [aupsert]
    by_cases he : hd.1 = k
    · simp [he, alookup]
    · rw [if_neg he]
      simp only [alookup]
      rw [if_neg he]
      exact ih

theorem alookup_aupsert_ne {α β : Type} [DecidableEq α]
    (l : List (α × β)) (k k' : α) (v : β) (h : k' ≠ k) :
    alookup (aupsert l k v) k' = alookup l k' := by
  induction l with
  | nil =>
    simp only [aupsert, alookup]
    rw [if_neg (fun hk => h (Eq.symm hk))]
  | cons hd tl ih =>
    simp only [aupsert]
    by_cases he : hd.1 = k
    · rw [if_pos he]
      simp only [alookup]
      have h2 : ¬ (hd.1 = k') := by
        intro hk
        exact h (by rw [← hk]; exact he)
      rw [if_neg (fun hk => h (Eq.symm hk)), if_neg h2]
    · rw [if_neg he]
      simp only [alookup]
      by_cases he' : hd.1 = k'
      · rw [if_pos he', if_pos he']
      · rw [if_neg he', if_neg he']
        exact ih

theorem length_le_maxStrLen (l : List String) (x : String) :
    x ∈ l → x.length ≤ maxStrLen l := by
  induction l with
  | nil => intro h; cases h
  | cons hd tl ih =>
    intro h
    rcases List.mem_cons.mp h with h1 | h1
    · subst h1
      simp only [maxStrLen, List.foldr]
      exact le_max_left _ _
    · simp only [maxStrLen, List.foldr]
      exact le_max_of_le_right (ih h1)

theorem freshStr_length (l : List String) : (freshStr l).length = maxStrLen l + 1 := by
  simp [freshStr, String.length]

theorem freshStr_not_mem (l : List String) : freshStr l ∉ l := by
  intro h
  have h1 := length_le_maxStrLen l _ h
  rw [freshStr_length] at h1
  omega

theorem freshStr_ne_empty (l : List String) : freshStr l ≠ "" := by
  intro h
  have := freshStr_length l
  rw [h] at this
  simp [String.length] at this

/-! ## Shared shape lemmas -/

theorem buildCRLWrite_ok_shape (b : Backend) (s : Storage) (tid : String)
    (rc : List RevokedCertificate) (ident : String) (num : Int) (now lt : Int) (s' : Storage)
    (h : buildCRLWrite b s tid rc ident num now lt = .ok s') :
    ∃ doc : CRLDocument, doc.revokedCertificates = rc ∧ doc.number = num ∧
      s' = { s with crls := aupsert s.crls ident doc } := by
  unfold buildCRLWrite at h
  cases hf : fetchCertBundleByIssuerId s tid true with
  | error e =>
    simp only [hf] at h
    exact Except.noConfusion h
  | ok pr =>
    simp only [hf] at h
    cases hp : parseCABundle pr.2 with
    | error e =>
      simp only [hp] at h
      exact Except.noConfusion h
    | ok sb =>
      simp only [hp, Except.ok.injEq] at h
      exact ⟨_, rfl, rfl, h.symm⟩

/-! ## Claims -/

/-- C2: every call to `rebuild(forceNew)` executes a full build with the
effective force flag equal to (pending-flag OR forceNew) and leaves the
pending flag cleared afterward regardless of whether it was already pending;
`rebuildIfForced` executes a build only when the pending flag is set, and
also leaves the flag cleared afterward. -/
theorem claim_C2_scheduler (f : Bool) (b : Backend) (s : Storage) (forceNew : Bool) (now : Int) :
    rebuild f b s forceNew now = (false, buildCRLs b s (f || forceNew) now) ∧
    rebuildIfForced true b s now = (false, buildCRLs b s true now) ∧
    rebuildIfForced false b s now = (false, s, none) := by
  refine ⟨?_, ?_, ?_⟩ <;>
    simp [rebuild, rebuildIfForced, _doRebuild]

/-- C3 (amended): provided the configured CRL duration resolves (the expiry
string is empty or parses — a non-empty unparseable string makes `buildCRL`
fail with an InternalError before the disable flag is consulted), a disabled
unforced call returns success without writing; when disabled but forced, it
writes a CRL with an empty revoked list regardless of the passed set;
otherwise the written CRL contains exactly the passed revoked set. -/
theorem claim_C3_buildCRL_disable (b : Backend) (s : Storage) (ci : CRLInfo)
    (thisIssuerId : String) (revoked : List RevokedCertificate) (identifier : String)
    (crlNumber : Int) (now : Int) :
    (s.crlInfo = some ci → ci.disable = true →
      (∃ d, resolveCRLLifetime b ci = .ok d) →
      buildCRL b s false thisIssuerId revoked identifier crlNumber now = .ok s) ∧
    (s.crlInfo = some ci → ci.disable = true →
      ∀ s', buildCRL b s true thisIssuerId revoked identifier crlNumber now = .ok s' →
        ∃ doc : CRLDocument, doc.revokedCertificates = [] ∧
          s' = { s with crls := aupsert s.crls identifier doc }) ∧
    ((s.crlInfo = none ∨ (∃ ci', s.crlInfo = some ci' ∧ ci'.disable = false)) →
      ∀ forceNew s',
        buildCRL b s forceNew thisIssuerId revoked identifier crlNumber now = .ok s' →
        ∃ doc : CRLDocument, doc.revokedCertificates = revoked ∧
          s' = { s with crls := aupsert s.crls identifier doc }) := by
  refine ⟨?_, ?_, ?_⟩
  · intro hci hd hres
    obtain ⟨d, hres⟩ := hres
    simp [buildCRL, hci, hres, hd]
  · intro hci hd s' h
    simp only [buildCRL, hci] at h
    cases hres : resolveCRLLifetime b ci with
    | error e =>
      simp only [hres] at h
      exact Except.noConfusion h
    | ok d =>
      simp only [hres, hd, Bool.not_true, if_true, if_false, Bool.false_eq_true,
        reduceIte] at h
      obtain ⟨doc, h1, _, h3⟩ := buildCRLWrite_ok_shape _ _ _ _ _ _ _ _ _ h
      exact ⟨doc, h1, h3⟩
  · intro hci forceNew s' h
    rcases hci with hci | ⟨ci', hci, hd⟩
    · simp only [buildCRL, hci] at h
      obtain ⟨doc, h1, _, h3⟩ := buildCRLWrite_ok_shape _ _ _ _ _ _ _ _ _ h
      exact ⟨doc, h1, h3⟩
    · simp only [buildCRL, hci] at h
      cases hres : resolveCRLLifetime b ci' with
      | error e =>
        simp only [hres] at h
        exact Except.noConfusion h
      | ok d =>
        simp only [hres, hd, Bool.false_eq_true, reduceIte] at h
        obtain ⟨doc, h1, _, h3⟩ := buildCRLWrite_ok_shape _ _ _ _ _ _ _ _ _ h
        exact ⟨doc, h1, h3⟩

/-- Counterexample to the original C3 reading: with the disabled flag set,
the build not forced, and a non-empty duration string that does not parse,
`buildCRL` does not return success — it fails with the InternalError raised
by the duration parse, which precedes the disable check. -/
theorem claim_C3_counterexample :
    sFixBadExpiry.crlInfo =
      some { expiry := "bogus", expiryParsed := none, disable := true } ∧
    buildCRL bFix sFixBadExpiry false "i" [⟨"bb", 5⟩] "c1" 1 10 =
      .error (.internalError "error parsing CRL duration of bogus") :=
  ⟨rfl, rfl⟩

/-- Witness for C3 at a concrete disabled and enabled mount. -/
theorem claim_C3_witness :
    buildCRL bFix sFixDisabled false "i" [⟨"bb", 5⟩] "c1" 1 10 = .ok sFixDisabled ∧
    (∃ doc : CRLDocument, doc.revokedCertificates = [] ∧
      (buildCRL bFix sFixDisabled true "i" [⟨"bb", 5⟩] "c1" 1 10 = .ok
        { sFixDisabled with crls := aupsert sFixDisabled.crls "c1" doc })) ∧
    (∃ doc : CRLDocument, doc.revokedCertificates = [⟨"bb", 5⟩] ∧
      (buildCRL bFix sFix true "i" [⟨"bb", 5⟩] "c1" 1 10 = .ok
        { sFix with crls := aupsert sFix.crls "c1" doc })) := by
  have h := claim_C3_buildCRL_disable bFix sFixDisabled ⟨"", none, true⟩ "i" [⟨"bb", 5⟩]
    "c1" 1 10
  have h3 := claim_C3_buildCRL_disable bFix sFix ⟨"", none, true⟩ "i" [⟨"bb", 5⟩] "c1" 1 10
  refine ⟨h.1 rfl rfl ⟨100, rfl⟩, ?_, ?_⟩
  · obtain ⟨doc, hdoc, hs⟩ := h.2.1 rfl rfl _ rfl
    refine ⟨doc, hdoc, ?_⟩
    rw [← hs]
    rfl
  · obtain ⟨doc, hdoc, hs⟩ := h3.2.2 (Or.inl rfl) true _ rfl
    refine ⟨doc, hdoc, ?_⟩
    rw [← hs]
    rfl

/-- C7: deleting the configured default key/issuer reports wasDefault = true,
clears the default pointer in the persisted config and removes the record;
deleting a non-default entry reports false and leaves the config record
unchanged. -/
theorem claim_C7_delete_clears_default (s : Storage) (id : String) :
    ((getKeysConfig s).defaultKeyId = id →
      (deleteKey s id).1 = true ∧
      (getKeysConfig (deleteKey s id).2).defaultKeyId = "" ∧
      (deleteKey s id).2.keys = aerase s.keys id) ∧
    ((getKeysConfig s).defaultKeyId ≠ id →
      (deleteKey s id).1 = false ∧
      (deleteKey s id).2.keyConfig = s.keyConfig ∧
      (deleteKey s id).2.keys = aerase s.keys id) ∧
    ((getIssuersConfig s).defaultIssuerId = id →
      (deleteIssuer s id).1 = true ∧
      (getIssuersConfig (deleteIssuer s id).2).defaultIssuerId = "" ∧
      (deleteIssuer s id).2.issuers = aerase s.issuers id) ∧
    ((getIssuersConfig s).defaultIssuerId ≠ id →
      (deleteIssuer s id).1 = false ∧
      (deleteIssuer s id).2.issuerConfig = s.issuerConfig ∧
      (deleteIssuer s id).2.issuers = aerase s.issuers id) := by
  refine ⟨?_, ?_, ?_, ?_⟩ <;> intro h <;>
    simp only [getKeysConfig, getIssuersConfig] at h <;>
    simp [deleteKey, deleteIssuer, setKeysConfig, setIssuersConfig, getKeysConfig,
      getIssuersConfig, h]

/-- Witness for C7: `sFix` has default key "k" and default issuer "i". -/
theorem claim_C7_witness :
    ((deleteKey sFix "k").1 = true ∧
      (getKeysConfig (deleteKey sFix "k").2).defaultKeyId = "" ∧
      (deleteKey sFix "k").2.keys = aerase sFix.keys "k") ∧
    ((deleteKey sFix "x").1 = false ∧
      (deleteKey sFix "x").2.keyConfig = sFix.keyConfig ∧
      (deleteKey sFix "x").2.keys = aerase sFix.keys "x") ∧
    ((deleteIssuer sFix "i").1 = true ∧
      (getIssuersConfig (deleteIssuer sFix "i").2).defaultIssuerId = "" ∧
      (deleteIssuer sFix "i").2.issuers = aerase sFix.issuers "i") ∧
    ((deleteIssuer sFix "x").1 = false ∧
      (deleteIssuer sFix "x").2.issuerConfig = sFix.issuerConfig ∧
      (deleteIssuer sFix "x").2.issuers = aerase sFix.issuers "x") :=
  ⟨(claim_C7_delete_clears_default sFix "k").1 (by decide),
   (claim_C7_delete_clears_default sFix "x").2.1 (by decide),
   (claim_C7_delete_clears_default sFix "i").2.2.1 (by decide),
   (claim_C7_delete_clears_default sFix "x").2.2.2 (by decide)⟩

/-- C8 (amended): `fetchKeyById`/`fetchIssuerById` fail with an InternalError
on an empty identifier, with a not-found UserError when no record exists at
the identifier, and with an InternalError when the stored record cannot be
JSON-decoded. -/
theorem claim_C8_fetch_errors (s : Storage) (id : String) :
    (id = "" → (∃ m, fetchKeyById s id = .error (.internalError m)) ∧
      (∃ m, fetchIssuerById s id = .error (.internalError m))) ∧
    (id ≠ "" → alookup s.keys id = none →
      ∃ m, fetchKeyById s id = .error (.userError m)) ∧
    (id ≠ "" → alookup s.keys id = some none →
      ∃ m, fetchKeyById s id = .error (.internalError m)) ∧
    (id ≠ "" → alookup s.issuers id = none →
      ∃ m, fetchIssuerById s id = .error (.userError m)) ∧
    (id ≠ "" → alookup s.issuers id = some none →
      ∃ m, fetchIssuerById s id = .error (.internalError m)) := by
  have hlen : id ≠ "" → ¬ id.length = 0 := by
    intro hne hzero
    apply hne
    cases id with
    | mk data =>
      cases data with
      | nil => rfl
      | cons c cs => simp [String.length] at hzero
  refine ⟨?_, ?_, ?_, ?_, ?_⟩
  · intro h
    subst h
    exact ⟨⟨_, rfl⟩, ⟨_, rfl⟩⟩
  · intro hne hl
    simp [fetchKeyById, hlen hne, hl]
  · intro hne hl
    simp [fetchKeyById, hlen hne, hl]
  · intro hne hl
    simp [fetchIssuerById, hlen hne, hl]
  · intro hne hl
    simp [fetchIssuerById, hlen hne, hl]

/-- Witness for C8 at concrete inputs: empty id, absent id, and an
undecodable record. -/
theorem claim_C8_witness :
    ((∃ m, fetchKeyById sFix "" = .error (.internalError m)) ∧
      (∃ m, fetchIssuerById sFix "" = .error (.internalError m))) ∧
    (∃ m, fetchKeyById sFix "absent" = .error (.userError m)) ∧
    (∃ m, fetchKeyById { sFix with keys := [("bad", none)] } "bad" =
      .error (.internalError m)) :=
  ⟨(claim_C8_fetch_errors sFix "").1 rfl,
   (claim_C8_fetch_errors sFix "absent").2.1 (by decide) (by decide),
   (claim_C8_fetch_errors { sFix with keys := [("bad", none)] } "bad").2.2.1
      (by decide) (by decide)⟩

/-- C8 counterexample: the claim says an empty identifier yields a not-found
user-attributable error, but the code returns an InternalError. -/
theorem claim_C8_counterexample :
    fetchKeyById storageEmpty "" =
      .error (.internalError "unable to fetch pki key: empty key identifier") ∧
    fetchIssuerById storageEmpty "" =
      .error (.internalError "unable to fetch pki issuer: empty issuer identifier") ∧
    isUserErrorResult (fetchKeyById storageEmpty "") = false ∧
    isUserErrorResult (fetchIssuerById storageEmpty "") = false := by
  exact ⟨rfl, rfl, rfl, rfl⟩

/-- C9: revoking an already-expired certificate (within the two-second grace
window) whose serial has no revocation record succeeds with a nil response
and changes nothing: no record is written and no rebuild is triggered (the
state and pending flag are returned untouched). -/
theorem claim_C9_revoke_expired (b : Backend) (f : Bool) (s : Storage) (serial : String)
    (fromLease : Bool) (now : Int) (ca : ParsedCABundle) (cert : Certificate)
    (h1 : b.tainted = false)
    (h2 : fetchCAInfo s = .ok ca)
    (h3 : toColonSerial serial ≠ ca.certificate.serial)
    (h4 : alookup s.revoked (normalizeSerial serial) = none)
    (h5 : alookup s.certs (normalizeSerial serial) = some (some cert))
    (h6 : cert.notAfter < now + 2) :
    revokeCert b f s serial fromLease now = .ok (.nilResponse, f, s) := by
  simp [revokeCert, h1, h2, h3, h4, h5, h6]

/-- Witness for C9: a concrete expired certificate under `sFixExpired`. -/
theorem claim_C9_witness :
    revokeCert bFix false sFixExpired "ser1" false 10 =
      .ok (.nilResponse, false, sFixExpired) := by
  have h2 : fetchCAInfo sFixExpired =
      .ok { certificate := certFix, privateKey := { pubKey := 1, keyType := "rsa" } } := rfl
  exact claim_C9_revoke_expired bFix false sFixExpired "ser1" false 10 _ certExpiredFix
    rfl h2 (by decide) rfl rfl (by decide)

/-! ## Lemmas about the import scans (toward C5 and C6) -/

theorem mem_map_fst_alookup {α β : Type} [DecidableEq α] (l : List (α × β)) (k : α)
    (h : k ∈ l.map Prod.fst) : ∃ v, alookup l k = some v := by
  induction l with
  | nil => cases h
  | cons hd tl ih =>
    by_cases he : hd.1 = k
    · exact ⟨hd.2, by simp [alookup, he]⟩
    · simp only [List.map_cons, List.mem_cons] at h
      rcases h with h | h
      · exact absurd h.symm he
      · obtain ⟨v, hv⟩ := ih h
        exact ⟨v, by simp [alookup, he, hv]⟩

theorem fetchKeyById_congr_append (s s' : Storage) (kid : String) (ke : Option keyEntry)
    (h : s'.keys = s.keys ++ [(kid, ke)]) (id : String)
    (hid : id ∈ s.keys.map Prod.fst) :
    fetchKeyById s' id = fetchKeyById s id := by
  obtain ⟨v, hv⟩ := mem_map_fst_alookup _ _ hid
  simp only [fetchKeyById, h]
  rw [alookup_append_left _ _ _ _ hv, hv]

theorem importKeyScan_congr (s s' : Storage) (t : String) (ids : List String)
    (h : ∀ id ∈ ids, fetchKeyById s' id = fetchKeyById s id) :
    importKeyScan s' t ids = importKeyScan s t ids := by
  induction ids with
  | nil => rfl
  | cons id rest ih =>
    simp only [importKeyScan]
    rw [h id (List.mem_cons_self id rest)]
    cases hf : fetchKeyById s id with
    | error e => rfl
    | ok k =>
      by_cases ht : k.privateKey.text = t
      · simp [ht]
      · simp [ht, ih (fun i hi => h i (List.mem_cons_of_mem _ hi))]

theorem importKeyScan_append (s : Storage) (t : String) (l₁ l₂ : List String)
    (h : importKeyScan s t l₁ = .ok none) :
    importKeyScan s t (l₁ ++ l₂) = importKeyScan s t l₂ := by
  induction l₁ with
  | nil => rfl
  | cons id rest ih =>
    simp only [importKeyScan, List.cons_append] at h ⊢
    cases hf : fetchKeyById s id with
    | error e =>
      simp only [hf] at h
      exact Except.noConfusion h
    | ok k =>
      simp only [hf] at h ⊢
      by_cases ht : k.privateKey.text = t
      · rw [if_pos ht] at h; exact absurd h (by simp)
      · rw [if_neg ht] at h ⊢
        exact ih h

theorem linkIssuersToKey_keys (pub : PubKey) (kid : String) (ids : List String) :
    ∀ (s s' : Storage), linkIssuersToKey pub kid ids s = .ok s' → s'.keys = s.keys := by
  induction ids with
  | nil =>
    intro s s' h
    simp only [linkIssuersToKey, Except.ok.injEq] at h
    rw [← h]
  | cons id rest ih =>
    intro s s' h
    unfold linkIssuersToKey at h
    cases hf : fetchIssuerById s id with
    | error e =>
      simp only [hf] at h
      exact Except.noConfusion h
    | ok iss =>
      simp only [hf] at h
      by_cases hk : 0 < iss.keyId.length
      · rw [if_pos hk] at h
        exact ih _ _ h
      · rw [if_neg hk] at h
        cases hc : getCertificate iss with
        | error e =>
          simp only [hc] at h
          exact Except.noConfusion h
        | ok cert =>
          simp only [hc] at h
          by_cases hp : cert.pubKey = pub
          · rw [if_pos hp] at h
            exact (ih _ _ h).trans rfl
          · rw [if_neg hp] at h
            exact ih _ _ h

theorem importKey_ok_spec (s : Storage) (K : PemKey) (n : String) (e : keyEntry)
    (ex : Bool) (s1 : Storage) (h : importKey s K n = .ok (e, ex, s1)) :
    (ex = true ∧ s1 = s ∧
      importKeyScan s (trimSpace K.text ++ "\n") (listKeys s) = .ok (some e)) ∨
    (ex = false ∧ importKeyScan s (trimSpace K.text ++ "\n") (listKeys s) = .ok none ∧
      e.name = n ∧ e.privateKey.text = trimSpace K.text ++ "\n" ∧ e.id = genKeyId s ∧
      s1.keys = aupsert s.keys (genKeyId s) (some e) ∧
      (∃ keySigner, K.parsed = some keySigner ∧
        ∃ s2, linkIssuersToKey keySigner.pubKey (genKeyId s) (listIssuers s)
            (writeKey s (mkKeyEntry s K n keySigner)) = .ok s2 ∧
          s1.issuers = s2.issuers)) := by
  unfold importKey at h
  split at h
  · exact absurd h (by simp)
  · rename_i existingKey heq
    simp only [Except.ok.injEq, Prod.mk.injEq] at h
    obtain ⟨h1, h2, h3⟩ := h
    left
    exact ⟨h2.symm, h3.symm, by rw [heq, h1]⟩
  · rename_i hscan
    split at h
    · exact absurd h (by simp)
    · rename_i keySigner hparse
      split at h
      · exact absurd h (by simp)
      · rename_i s2 hlink
        have hkeys2 : s2.keys = aupsert s.keys (genKeyId s) (some (mkKeyEntry s K n keySigner)) :=
          linkIssuersToKey_keys _ _ _ _ _ hlink
        split at h <;>
        · simp only [Except.ok.injEq, Prod.mk.injEq] at h
          obtain ⟨h1, h2, h3⟩ := h
          subst h1
          subst h3
          exact Or.inr ⟨h2.symm, hscan, rfl, rfl, rfl, hkeys2, keySigner, hparse, s2, hlink, rfl⟩

/-- The issuer-store analog of `fetchKeyById_congr_append`. -/
theorem fetchIssuerById_congr_append (s s' : Storage) (iid : String)
    (ie : Option issuerEntry) (h : s'.issuers = s.issuers ++ [(iid, ie)]) (id : String)
    (hid : id ∈ s.issuers.map Prod.fst) :
    fetchIssuerById s' id = fetchIssuerById s id := by
  obtain ⟨v, hv⟩ := mem_map_fst_alookup _ _ hid
  simp only [fetchIssuerById, h]
  rw [alookup_append_left _ _ _ _ hv, hv]

theorem importIssuerScan_congr (s s' : Storage) (t : String) (ids : List String)
    (h : ∀ id ∈ ids, fetchIssuerById s' id = fetchIssuerById s id) :
    importIssuerScan s' t ids = importIssuerScan s t ids := by
  induction ids with
  | nil => rfl
  | cons id rest ih =>
    simp only [importIssuerScan]
    rw [h id (List.mem_cons_self id rest)]
    cases hf : fetchIssuerById s id with
    | error e => rfl
    | ok k =>
      by_cases ht : k.certificate.text = t
      · simp [ht]
      · simp [ht, ih (fun i hi => h i (List.mem_cons_of_mem _ hi))]

theorem importIssuerScan_append (s : Storage) (t : String) (l₁ l₂ : List String)
    (h : importIssuerScan s t l₁ = .ok none) :
    importIssuerScan s t (l₁ ++ l₂) = importIssuerScan s t l₂ := by
  induction l₁ with
  | nil => rfl
  | cons id rest ih =>
    simp only [importIssuerScan, List.cons_append] at h ⊢
    cases hf : fetchIssuerById s id with
    | error e =>
      simp only [hf] at h
      exact Except.noConfusion h
    | ok k =>
      simp only [hf] at h ⊢
      by_cases ht : k.certificate.text = t
      · rw [if_pos ht] at h; exact absurd h (by simp)
      · rw [if_neg ht] at h ⊢
        exact ih h

theorem importIssuer_ok_spec (s : Storage) (C : PemCert) (n : String) (ie : issuerEntry)
    (iex : Bool) (t1 : Storage) (h : importIssuer s C n = .ok (ie, iex, t1)) :
    (iex = true ∧ t1 = s ∧
      importIssuerScan s (trimSpace C.text ++ "\n") (listIssuers s) = .ok (some ie)) ∨
    (iex = false ∧ importIssuerScan s (trimSpace C.text ++ "\n") (listIssuers s) = .ok none ∧
      ie.name = n ∧ ie.certificate.text = trimSpace C.text ++ "\n" ∧ ie.id = genIssuerId s ∧
      t1.issuers = aupsert s.issuers (genIssuerId s) (some ie) ∧
      (∃ issuerCert, C.parsed = some issuerCert ∧
        findKeyForCert s issuerCert.pubKey (listKeys s) = .ok ie.keyId)) := by
  unfold importIssuer at h
  split at h
  · exact absurd h (by simp)
  · rename_i existingIssuer heq
    simp only [Except.ok.injEq, Prod.mk.injEq] at h
    obtain ⟨h1, h2, h3⟩ := h
    left
    exact ⟨h2.symm, h3.symm, by rw [heq, h1]⟩
  · rename_i hscan
    split at h
    · exact absurd h (by simp)
    · split at h
      · exact absurd h (by simp)
      · rename_i issuerCert hparse
        split at h
        · exact absurd h (by simp)
        · split at h
          · exact absurd h (by simp)
          · rename_i linkedKeyId hfind
            split at h <;>
            · simp only [Except.ok.injEq, Prod.mk.injEq] at h
              obtain ⟨h1, h2, h3⟩ := h
              subst h1
              subst h3
              exact Or.inr ⟨h2.symm, hscan, rfl, rfl, rfl, rfl, issuerCert, hparse, hfind⟩

/-- C5: after a successful `importKey(K, n1)`, importing the same material
again (equal after whitespace normalization) under any other name returns the
already-stored entry with existed = true and the same identifier, mutates
nothing, and preserves the name given at creation; the same holds for
`importIssuer` on identical normalized certificate material. -/
theorem claim_C5_import_idempotent (s : Storage) (K Kb : PemKey) (C Cb : PemCert)
    (n1 n2 : String) (e : keyEntry) (ex : Bool) (s1 : Storage)
    (ie : issuerEntry) (iex : Bool) (t1 : Storage) :
    (importKey s K n1 = .ok (e, ex, s1) → trimSpace Kb.text = trimSpace K.text →
      importKey s1 Kb n2 = .ok (e, true, s1) ∧ (ex = false → e.name = n1)) ∧
    (importIssuer s C n1 = .ok (ie, iex, t1) → trimSpace Cb.text = trimSpace C.text →
      importIssuer t1 Cb n2 = .ok (ie, true, t1) ∧ (iex = false → ie.name = n1)) := by
  constructor
  · intro h1 hK
    rcases importKey_ok_spec _ _ _ _ _ _ h1 with
      ⟨hex, hs, hscan⟩ | ⟨hex, hscan, hname, htext, hid, hkeys, hextra⟩
    · subst hs
      constructor
      · unfold importKey
        rw [hK, hscan]
      · intro hfalse
        rw [hex] at hfalse
        exact absurd hfalse (by simp)
    · have hfresh : genKeyId s ∉ s.keys.map Prod.fst := freshStr_not_mem _
      have happend : s1.keys = s.keys ++ [(genKeyId s, some e)] := by
        rw [hkeys, aupsert_of_not_mem _ _ _ hfresh]
      have hlist : listKeys s1 = listKeys s ++ [genKeyId s] := by
        simp [listKeys, happend]
      have hcongr : importKeyScan s1 (trimSpace K.text ++ "\n") (listKeys s) =
          importKeyScan s (trimSpace K.text ++ "\n") (listKeys s) :=
        importKeyScan_congr _ _ _ _
          (fun id hid => fetchKeyById_congr_append s s1 _ _ happend id hid)
      have hlen : ¬ (genKeyId s).length = 0 := by
        rw [genKeyId, freshStr_length]
        exact Nat.succ_ne_zero _
      have hfetchNew : fetchKeyById s1 (genKeyId s) = .ok e := by
        simp only [fetchKeyById, hlen, if_false, happend]
        rw [alookup_append_right _ _ _ (alookup_eq_none_of_not_mem _ _ hfresh)]
        simp [alookup]
      have hscan1 : importKeyScan s1 (trimSpace K.text ++ "\n") (listKeys s1) = .ok (some e) := by
        rw [hlist, importKeyScan_append _ _ _ _ (hcongr.trans hscan)]
        simp only [importKeyScan, hfetchNew, htext, if_pos]
      constructor
      · unfold importKey
        rw [hK, hscan1]
      · intro _
        exact hname
  · intro h1 hC
    rcases importIssuer_ok_spec _ _ _ _ _ _ h1 with
      ⟨hex, hs, hscan⟩ | ⟨hex, hscan, hname, htext, hid, hiss, hextra⟩
    · subst hs
      constructor
      · unfold importIssuer
        rw [hC, hscan]
      · intro hfalse
        rw [hex] at hfalse
        exact absurd hfalse (by simp)
    · have hfresh : genIssuerId s ∉ s.issuers.map Prod.fst := freshStr_not_mem _
      have happend : t1.issuers = s.issuers ++ [(genIssuerId s, some ie)] := by
        rw [hiss, aupsert_of_not_mem _ _ _ hfresh]
      have hlist : listIssuers t1 = listIssuers s ++ [genIssuerId s] := by
        simp [listIssuers, happend]
      have hcongr : importIssuerScan t1 (trimSpace C.text ++ "\n") (listIssuers s) =
          importIssuerScan s (trimSpace C.text ++ "\n") (listIssuers s) :=
        importIssuerScan_congr _ _ _ _
          (fun id hid => fetchIssuerById_congr_append s t1 _ _ happend id hid)
      have hlen : ¬ (genIssuerId s).length = 0 := by
        rw [genIssuerId, freshStr_length]
        exact Nat.succ_ne_zero _
      have hfetchNew : fetchIssuerById t1 (genIssuerId s) = .ok ie := by
        simp only [fetchIssuerById, hlen, if_false, happend]
        rw [alookup_append_right _ _ _ (alookup_eq_none_of_not_mem _ _ hfresh)]
        simp [alookup]
      have hscan1 : importIssuerScan t1 (trimSpace C.text ++ "\n") (listIssuers t1) =
          .ok (some ie) := by
        rw [hlist, importIssuerScan_append _ _ _ _ (hcongr.trans hscan)]
        simp only [importIssuerScan, hfetchNew, htext, if_pos]
      constructor
      · unfold importIssuer
        rw [hC, hscan1]
      · intro _
        exact hname

/-! ## Lemmas toward C6: link-repair invariants -/

theorem fetchKeyById_ok_inv (s : Storage) (id : String) (k : keyEntry)
    (h : fetchKeyById s id = .ok k) :
    alookup s.keys id = some (some k) ∧ ¬ id.length = 0 := by
  unfold fetchKeyById at h
  by_cases h0 : id.length = 0
  · rw [if_pos h0] at h
    exact absurd h (by simp)
  · rw [if_neg h0] at h
    cases hl : alookup s.keys id with
    | none => rw [hl] at h; exact absurd h (by simp)
    | some o =>
      rw [hl] at h
      cases o with
      | none => exact absurd h (by simp)
      | some v =>
        simp only [Except.ok.injEq] at h
        subst h
        exact ⟨rfl, h0⟩

theorem fetchIssuerById_ok_inv (s : Storage) (id : String) (iss : issuerEntry)
    (h : fetchIssuerById s id = .ok iss) :
    alookup s.issuers id = some (some iss) ∧ ¬ id.length = 0 := by
  unfold fetchIssuerById at h
  by_cases h0 : id.length = 0
  · rw [if_pos h0] at h
    exact absurd h (by simp)
  · rw [if_neg h0] at h
    cases hl : alookup s.issuers id with
    | none => rw [hl] at h; exact absurd h (by simp)
    | some o =>
      rw [hl] at h
      cases o with
      | none => exact absurd h (by simp)
      | some v =>
        simp only [Except.ok.injEq] at h
        subst h
        exact ⟨rfl, h0⟩

theorem getCertificate_ok_inv (i : issuerEntry) (c : Certificate)
    (h : getCertificate i = .ok c) : i.certificate.parsed = some c := by
  unfold getCertificate at h
  cases hp : i.certificate.parsed with
  | none => rw [hp] at h; exact absurd h (by simp)
  | some v =>
    rw [hp] at h
    simp only [Except.ok.injEq] at h
    rw [h]

theorem string_eq_empty_of_not_pos (x : String) (h : ¬ 0 < x.length) : x = "" := by
  cases x with
  | mk data =>
    cases data with
    | nil => rfl
    | cons c cs => simp [String.length] at h

/-- What one run of the issuer link-repair loop can do to each stored issuer
record: leave it alone, or fill in the key link of a record whose link was
unset and whose certificate's public key matches the imported key. -/
theorem linkIssuersToKey_spec (pub : PubKey) (kid : String) (hkid : kid ≠ "") :
    ∀ (ids : List String) (s s' : Storage),
      linkIssuersToKey pub kid ids s = .ok s' →
      issuersWellKeyed s →
      ∀ i, alookup s'.issuers i = alookup s.issuers i ∨
        (∃ entry, alookup s.issuers i = some (some entry) ∧ entry.keyId = "" ∧
          (∃ cert, entry.certificate.parsed = some cert ∧ cert.pubKey = pub) ∧
          alookup s'.issuers i = some (some { entry with keyId := kid })) := by
  intro ids
  induction ids with
  | nil =>
    intro s s' h hwk i
    simp only [linkIssuersToKey, Except.ok.injEq] at h
    subst h
    exact Or.inl rfl
  | cons id rest ih =>
    intro s s' h hwk i
    unfold linkIssuersToKey at h
    cases hf : fetchIssuerById s id with
    | error e =>
      simp only [hf] at h
      exact Except.noConfusion h
    | ok iss =>
      simp only [hf] at h
      by_cases hk : 0 < iss.keyId.length
      · rw [if_pos hk] at h
        exact ih _ _ h hwk i
      · rw [if_neg hk] at h
        cases hc : getCertificate iss with
        | error e =>
          simp only [hc] at h
          exact Except.noConfusion h
        | ok cert =>
          simp only [hc] at h
          by_cases hp : cert.pubKey = pub
          · rw [if_pos hp] at h
            have hinv := fetchIssuerById_ok_inv _ _ _ hf
            have hid : iss.id = id := hwk id iss hinv.1
            have hkempty : iss.keyId = "" := string_eq_empty_of_not_pos _ hk
            have hparsed : iss.certificate.parsed = some cert := getCertificate_ok_inv _ _ hc
            have hwk2 : issuersWellKeyed (writeIssuer s { iss with keyId := kid }) := by
              intro j entry hj
              by_cases hji : j = iss.id
              · subst hji
                rw [writeIssuer] at hj
                simp only at hj
                rw [alookup_aupsert_self] at hj
                simp only [Option.some.injEq] at hj
                rw [← hj]
              · rw [writeIssuer] at hj
                simp only at hj
                rw [alookup_aupsert_ne _ _ _ _ hji] at hj
                exact hwk j entry hj
            have hrec := ih _ _ h hwk2 i
            by_cases hii : i = iss.id
            · subst hii
              have hlook : alookup s.issuers iss.id = some (some iss) := by
                rw [hid]
                exact hinv.1
              have hlook2 : alookup (writeIssuer s { iss with keyId := kid }).issuers iss.id
                  = some (some { iss with keyId := kid }) := by
                rw [writeIssuer]
                simp only
                exact alookup_aupsert_self _ _ _
              rcases hrec with hrec | ⟨entry2, h1, h2, h3, h4⟩
              · right
                exact ⟨iss, hlook, hkempty, ⟨cert, hparsed, hp⟩, by rw [hrec, hlook2]⟩
              · rw [hlook2] at h1
                simp only [Option.some.injEq] at h1
                rw [← h1] at h2
                exact absurd h2 hkid
            · have heq2 : alookup (writeIssuer s { iss with keyId := kid }).issuers i
                  = alookup s.issuers i := by
                rw [writeIssuer]
                simp only
                exact alookup_aupsert_ne _ _ _ _ hii
              rcases hrec with hrec | ⟨entry2, h1, h2, h3, h4⟩
              · left
                rw [hrec, heq2]
              · right
                rw [heq2] at h1
                exact ⟨entry2, h1, h2, h3, h4⟩
          · rw [if_neg hp] at h
            exact ih _ _ h hwk i

theorem alookup_of_mem_nodup {β : Type} (l : List (String × β)) (k : String) (v : β)
    (hm : (k, v) ∈ l) (hnd : (l.map Prod.fst).Nodup) : alookup l k = some v := by
  induction l with
  | nil => cases hm
  | cons hd tl ih =>
    simp only [List.map_cons, List.nodup_cons] at hnd
    rcases List.mem_cons.mp hm with hm1 | hm1
    · rw [← hm1]
      simp [alookup]
    · have hkmem : k ∈ tl.map Prod.fst := List.mem_map.mpr ⟨(k, v), hm1, rfl⟩
      have hne : hd.1 ≠ k := fun he => hnd.1 (by rw [he]; exact hkmem)
      simp only [alookup]
      rw [if_neg hne]
      exact ih hm1 hnd.2

theorem importKeyScan_none_spec (s : Storage) (t : String) :
    ∀ ids, importKeyScan s t ids = .ok none →
      ∀ id ∈ ids, ∃ k, fetchKeyById s id = .ok k ∧ k.privateKey.text ≠ t := by
  intro ids
  induction ids with
  | nil =>
    intro h id hid
    cases hid
  | cons i rest ih =>
    intro h id hid
    simp only [importKeyScan] at h
    cases hf : fetchKeyById s i with
    | error e =>
      simp only [hf] at h
      exact Except.noConfusion h
    | ok k =>
      simp only [hf] at h
      by_cases ht : k.privateKey.text = t
      · rw [if_pos ht] at h
        exact absurd h (by simp)
      · rw [if_neg ht] at h
        rcases List.mem_cons.mp hid with h1 | h1
        · subst h1
          exact ⟨k, hf, ht⟩
        · exact ih h id h1

theorem findKeyForCert_spec (s : Storage) (pub : PubKey) :
    ∀ ids r, findKeyForCert s pub ids = .ok r →
      r = "" ∨ ∃ id k signer, fetchKeyById s id = .ok k ∧
        k.privateKey.parsed = some signer ∧ signer.pubKey = pub ∧ r = k.id := by
  intro ids
  induction ids with
  | nil =>
    intro r h
    simp only [findKeyForCert, Except.ok.injEq] at h
    exact Or.inl h.symm
  | cons i rest ih =>
    intro r h
    simp only [findKeyForCert] at h
    cases hf : fetchKeyById s i with
    | error e =>
      simp only [hf] at h
      exact Except.noConfusion h
    | ok k =>
      simp only [hf] at h
      cases hp : k.privateKey.parsed with
      | none =>
        simp only [hp] at h
        exact Except.noConfusion h
      | some signer =>
        simp only [hp] at h
        by_cases hpe : signer.pubKey = pub
        · rw [if_pos hpe] at h
          simp only [Except.ok.injEq] at h
          exact Or.inr ⟨i, k, signer, hf, hp, hpe, h.symm⟩
        · rw [if_neg hpe] at h
          exact ih r h

theorem not_mem_keyTexts_of_scan_none (s : Storage) (t : String)
    (hnd : (s.keys.map Prod.fst).Nodup)
    (hscan : importKeyScan s t (listKeys s) = .ok none) :
    t ∉ keyTexts s := by
  intro hmem
  simp only [keyTexts, List.mem_map] at hmem
  obtain ⟨k, hk, hkt⟩ := hmem
  rw [List.mem_filterMap] at hk
  obtain ⟨a, ha, hfa⟩ := hk
  obtain ⟨a1, a2⟩ := a
  simp only at hfa
  subst hfa
  have hmemid : a1 ∈ listKeys s := List.mem_map.mpr ⟨(a1, some k), ha, rfl⟩
  obtain ⟨k', hk', hkt'⟩ := importKeyScan_none_spec s t (listKeys s) hscan a1 hmemid
  have hlook : alookup s.keys a1 = some (some k) := alookup_of_mem_nodup _ _ _ ha hnd
  have hinv := fetchKeyById_ok_inv _ _ _ hk'
  rw [hlook] at hinv
  have hkk : k = k' := by
    have := hinv.1
    simp only [Option.some.injEq] at this
    exact this
  rw [← hkk] at hkt'
  exact hkt' hkt

/-- C6 (amended): importKey never overwrites an issuer's nonempty key link
and fills a link only for an issuer whose link was unset and whose
certificate public key matches the imported key; importIssuer links the new
issuer to at most one existing key, and only one with a matching public key;
and importKey never stores a second entry with the same normalized
private-key text (two distinct encodings of the same key may however both be
stored). -/
theorem claim_C6_link_invariant (s : Storage) (K : PemKey) (C : PemCert) (n : String)
    (e : keyEntry) (ex : Bool) (s1 : Storage) (ie : issuerEntry) (iex : Bool)
    (t1 : Storage) :
    (importKey s K n = .ok (e, ex, s1) → issuersWellKeyed s →
      ∀ i entry, alookup s.issuers i = some (some entry) → entry.keyId ≠ "" →
        alookup s1.issuers i = some (some entry)) ∧
    (importKey s K n = .ok (e, ex, s1) → issuersWellKeyed s →
      ∀ i entry entry', alookup s.issuers i = some (some entry) →
        alookup s1.issuers i = some (some entry') → entry' ≠ entry →
        entry.keyId = "" ∧ entry' = { entry with keyId := e.id } ∧
        ∃ cert signer, entry.certificate.parsed = some cert ∧
          K.parsed = some signer ∧ cert.pubKey = signer.pubKey) ∧
    (importIssuer s C n = .ok (ie, iex, t1) → iex = false →
      ie.keyId = "" ∨ ∃ id k signer cert, fetchKeyById s id = .ok k ∧
        k.privateKey.parsed = some signer ∧ C.parsed = some cert ∧
        signer.pubKey = cert.pubKey ∧ ie.keyId = k.id) ∧
    (importKey s K n = .ok (e, ex, s1) → (s.keys.map Prod.fst).Nodup →
      (keyTexts s).Nodup → (keyTexts s1).Nodup) := by
  have hR : importKey s K n = .ok (e, ex, s1) → issuersWellKeyed s →
      (s1.issuers = s.issuers ∧ ex = true) ∨
      (∃ signer, K.parsed = some signer ∧ e.id = genKeyId s ∧
        ∀ i, alookup s1.issuers i = alookup s.issuers i ∨
          (∃ entry, alookup s.issuers i = some (some entry) ∧ entry.keyId = "" ∧
            (∃ cert, entry.certificate.parsed = some cert ∧
              cert.pubKey = signer.pubKey) ∧
            alookup s1.issuers i = some (some { entry with keyId := genKeyId s }))) := by
    intro h hwk
    rcases importKey_ok_spec _ _ _ _ _ _ h with
      ⟨hex, hs, _⟩ | ⟨hex, _, _, _, hid, _, signer, hsig, s2, hlink, hiss⟩
    · left
      rw [hs]
      exact ⟨rfl, hex⟩
    · right
      have hkidne : genKeyId s ≠ "" := by
        intro hc
        have := freshStr_length (listKeys s)
        rw [genKeyId] at hc
        rw [hc] at this
        simp [String.length] at this
      have hwk' : issuersWellKeyed (writeKey s (mkKeyEntry s K n signer)) := hwk
      have hres := linkIssuersToKey_spec signer.pubKey (genKeyId s) hkidne
        (listIssuers s) _ _ hlink hwk'
      refine ⟨signer, hsig, hid, ?_⟩
      intro i
      rcases hres i with h1 | ⟨entry, h1, h2, h3, h4⟩
      · left
        rw [hiss, h1]
        rfl
      · right
        exact ⟨entry, h1, h2, h3, by rw [hiss, h4]⟩
  refine ⟨?_, ?_, ?_, ?_⟩
  · intro h hwk i entry hlook hne
    rcases hR h hwk with ⟨heq, _⟩ | ⟨signer, hsig, hid, hall⟩
    · rw [heq, hlook]
    · rcases hall i with h1 | ⟨entry0, h1, h2, _, _⟩
      · rw [h1, hlook]
      · rw [hlook] at h1
        simp only [Option.some.injEq] at h1
        exact absurd (by rw [h1]; exact h2) hne
  · intro h hwk i entry entry' hlook hlook' hne
    rcases hR h hwk with ⟨heq, _⟩ | ⟨signer, hsig, hid, hall⟩
    · rw [heq, hlook] at hlook'
      simp only [Option.some.injEq] at hlook'
      exact absurd hlook'.symm hne
    · rcases hall i with h1 | ⟨entry0, h1, h2, ⟨cert, hc1, hc2⟩, h4⟩
      · rw [h1, hlook] at hlook'
        simp only [Option.some.injEq] at hlook'
        exact absurd hlook'.symm hne
      · rw [hlook] at h1
        simp only [Option.some.injEq] at h1
        subst h1
        rw [hlook'] at h4
        simp only [Option.some.injEq] at h4
        refine ⟨h2, ?_, cert, signer, hc1, hsig, hc2⟩
        rw [hid]
        exact h4
  · intro h hfalse
    rcases importIssuer_ok_spec _ _ _ _ _ _ h with
      ⟨hex, _, _⟩ | ⟨_, _, _, _, _, _, issuerCert, hparse, hfind⟩
    · rw [hfalse] at hex
      exact absurd hex (by simp)
    · rcases findKeyForCert_spec s issuerCert.pubKey (listKeys s) ie.keyId hfind with
        h1 | ⟨id, k, signer, hf, hp, hpe, hr⟩
      · exact Or.inl h1
      · exact Or.inr ⟨id, k, signer, issuerCert, hf, hp, hparse, hpe, hr⟩
  · intro h hnd hndt
    rcases importKey_ok_spec _ _ _ _ _ _ h with
      ⟨_, hs, _⟩ | ⟨_, hscan, _, htext, _, hkeys, _⟩
    · rw [hs]
      exact hndt
    · have hfresh : genKeyId s ∉ s.keys.map Prod.fst := freshStr_not_mem _
      have happend : s1.keys = s.keys ++ [(genKeyId s, some e)] := by
        rw [hkeys, aupsert_of_not_mem _ _ _ hfresh]
      have htx : keyTexts s1 = keyTexts s ++ [e.privateKey.text] := by
        simp [keyTexts, happend]
      rw [htx]
      have hnotmem : e.privateKey.text ∉ keyTexts s := by
        rw [htext]
        exact not_mem_keyTexts_of_scan_none s _ hnd hscan
      simp only [List.nodup_append, List.nodup_cons, List.nodup_nil, and_true,
        List.not_mem_nil, not_false_iff]
      exact ⟨hndt, by simp, fun a ha hb => by
        simp only [List.mem_singleton] at hb
        rw [hb] at ha
        exact hnotmem ha⟩

/-- C6 counterexample: importing two byte-distinct encodings of the same
private key (equal public fingerprints) creates two stored KeyEntry records
holding the key for one public key — the per-public-key uniqueness the claim
asserts does not hold on reachable states. -/
theorem claim_C6_counterexample :
    importKey storageEmpty kPemC6a "n1" = .ok (keyC6a, false, storC6a) ∧
    importKey storC6a kPemC6b "n2" = .ok (keyC6b, false, storC6b) ∧
    countKeysWithPub storC6b 5 = 2 := by
  refine ⟨?_, ?_, ?_⟩ <;> rfl

theorem issuersWellKeyed_single (id : String) (entry : issuerEntry) (s : Storage)
    (hs : s.issuers = [(id, some entry)]) (hid : entry.id = id) : issuersWellKeyed s := by
  intro j e hj
  rw [hs] at hj
  simp only [alookup] at hj
  by_cases hji : id = j
  · rw [if_pos hji] at hj
    simp only [Option.some.injEq] at hj
    rw [← hj, hid, hji]
  · rw [if_neg hji] at hj
    exact absurd hj (by simp [alookup])

/-- Witness for C5: a key and an issuer imported into an empty mount, then
imported a second time under a different name. -/
theorem claim_C5_witness :
    (importKey storC5 kPemC5 "n2" = .ok (keyEntryC5, true, storC5) ∧
      (false = false → keyEntryC5.name = "n1")) ∧
    (importIssuer storIssC5 cPemC5 "n2" = .ok (issuerEntryC5, true, storIssC5) ∧
      (false = false → issuerEntryC5.name = "n1")) := by
  have h := claim_C5_import_idempotent storageEmpty kPemC5 kPemC5 cPemC5 cPemC5 "n1" "n2"
      keyEntryC5 false storC5 issuerEntryC5 false storIssC5
  exact ⟨h.1 rfl rfl, h.2 rfl rfl⟩

/-- Witness for C6 at concrete inputs: importing a fresh key leaves the
linked issuer record untouched; a newly imported issuer with no matching key
gets an empty link; and the normalized texts stay duplicate-free. -/
theorem claim_C6_witness :
    alookup sFixC6w.issuers "i" = some (some issuerFix) ∧
    (issuerEntryC5.keyId = "" ∨ ∃ id k signer cert,
      fetchKeyById storageEmpty id = .ok k ∧
      k.privateKey.parsed = some signer ∧ cPemC5.parsed = some cert ∧
      signer.pubKey = cert.pubKey ∧ issuerEntryC5.keyId = k.id) ∧
    (keyTexts sFixC6w).Nodup := by
  have hwk : issuersWellKeyed sFix := issuersWellKeyed_single "i" issuerFix sFix rfl rfl
  have h := claim_C6_link_invariant sFix kPemC6w cPemC5 "n2" keyC6w false sFixC6w
      issuerEntryC5 false storIssC5
  have h2 := claim_C6_link_invariant storageEmpty kPemC6w cPemC5 "n1" keyC6w false sFixC6w
      issuerEntryC5 false storIssC5
  exact ⟨h.1 rfl hwk "i" issuerFix rfl (by decide),
         h2.2.2.1 rfl rfl,
         h.2.2.2 rfl (by decide) (by decide)⟩

/-! ## Lemmas toward C1, C4, C10: the buildCRLs group loop -/

theorem buildCRL_ok_cases (b : Backend) (s : Storage) (forceNew : Bool) (tid : String)
    (rev : List RevokedCertificate) (ident : String) (num : Int) (now : Int) (s' : Storage)
    (h : buildCRL b s forceNew tid rev ident num now = .ok s') :
    s' = s ∨ ∃ doc : CRLDocument, doc.number = num ∧
      s' = { s with crls := aupsert s.crls ident doc } := by
  unfold buildCRL at h
  cases hci : s.crlInfo with
  | none =>
    simp only [hci] at h
    obtain ⟨doc, _, hnum, hs⟩ := buildCRLWrite_ok_shape _ _ _ _ _ _ _ _ _ h
    exact Or.inr ⟨doc, hnum, by rw [hs, hci]⟩
  | some ci =>
    simp only [hci] at h
    cases hres : resolveCRLLifetime b ci with
    | error e =>
      simp only [hres] at h
      exact Except.noConfusion h
    | ok lt =>
      simp only [hres] at h
      cases hd : ci.disable with
      | false =>
        rw [hd] at h
        simp only [Bool.false_eq_true, if_false] at h
        obtain ⟨doc, _, hnum, hs⟩ := buildCRLWrite_ok_shape _ _ _ _ _ _ _ _ _ h
        exact Or.inr ⟨doc, hnum, by rw [hs, hci]⟩
      | true =>
        rw [hd] at h
        simp only [if_true] at h
        cases forceNew with
        | false =>
          simp only [Bool.not_false, if_true, Except.ok.injEq] at h
          exact Or.inl h.symm
        | true =>
          simp only [Bool.not_true, Bool.false_eq_true, if_false] at h
          obtain ⟨doc, _, hnum, hs⟩ := buildCRLWrite_ok_shape _ _ _ _ _ _ _ _ _ h
          exact Or.inr ⟨doc, hnum, by rw [hs, hci]⟩

theorem assignGroup_spec (b : Backend) (now : Int) (forceNew : Bool) (s : Storage)
    (issuersSet : List String) (rep : String) (rc : List RevokedCertificate)
    (c : String) (cfg1 : localCRLConfigEntry) (s' : Storage) (cfg' : localCRLConfigEntry)
    (h : assignGroup b now forceNew s issuersSet rep rc c cfg1 = .ok (s', cfg')) :
    alookup cfg'.crlNumberMap c = some (int64Wrap ((alookup cfg1.crlNumberMap c).getD 0 + 1)) ∧
    (∀ d, d ≠ c → alookup cfg'.crlNumberMap d = alookup cfg1.crlNumberMap d) ∧
    cfg'.issuerIDCRLMap = issuersSet.foldl (fun m i => aupsert m i c) cfg1.issuerIDCRLMap ∧
    (s'.crls = s.crls ∨ ∃ doc : CRLDocument,
      doc.number = (alookup cfg1.crlNumberMap c).getD 0 ∧
      s'.crls = aupsert s.crls c doc) := by
  unfold assignGroup at h
  cases hb : buildCRL b s forceNew rep rc c ((alookup cfg1.crlNumberMap c).getD 0) now with
  | error e =>
    simp only [hb] at h
    exact Except.noConfusion h
  | ok s2 =>
    simp only [hb, Except.ok.injEq, Prod.mk.injEq] at h
    obtain ⟨h1, h2⟩ := h
    subst h1
    subst h2
    refine ⟨alookup_aupsert_self _ _ _, fun d hd => alookup_aupsert_ne _ _ _ _ hd, rfl, ?_⟩
    rcases buildCRL_ok_cases _ _ _ _ _ _ _ _ _ hb with hss | ⟨doc, hnum, hs⟩
    · left
      rw [hss]
    · right
      exact ⟨doc, hnum, by rw [hs]⟩

theorem genCRLId_not_mem_numberMap (cfg : localCRLConfigEntry) :
    alookup cfg.crlNumberMap (genCRLId cfg) = none := by
  apply alookup_eq_none_of_not_mem
  intro hmem
  exact freshStr_not_mem _ (List.mem_append.mpr (Or.inl hmem))

theorem processOneGroup_spec (b : Backend) (now : Int) (forceNew : Bool) (did : String)
    (un : List RevokedCertificate) (rm : List (String × List RevokedCertificate))
    (s : Storage) (cfg : localCRLConfigEntry) (g : List String) (s' : Storage)
    (cfg' : localCRLConfigEntry)
    (h : processOneGroup b now forceNew did un rm s cfg g = .ok (s', cfg'))
    (hg : g ≠ []) :
    ∃ c base,
      alookup cfg'.crlNumberMap c = some (int64Wrap (base + 1)) ∧
      (∀ d, d ≠ c → alookup cfg'.crlNumberMap d = alookup cfg.crlNumberMap d) ∧
      ((alookup cfg.crlNumberMap c = none ∧ base = 1) ∨
        base = (alookup cfg.crlNumberMap c).getD 0) ∧
      (s'.crls = s.crls ∨ ∃ doc : CRLDocument, doc.number = base ∧
        s'.crls = aupsert s.crls c doc) := by
  unfold processOneGroup at h
  cases g with
  | nil => exact absurd rfl hg
  | cons rep rest =>
    cases hscan : groupScan did un rm cfg.issuerIDCRLMap (rep :: rest)
        { revokedCerts := [], representative := rep, crlIdentifier := "", crlIdIssuer := "" } with
    | error e =>
      simp only [hscan] at h
      exact Except.noConfusion h
    | ok scan =>
      simp only [hscan] at h
      by_cases hid : scan.crlIdentifier.length = 0
      · rw [if_pos hid] at h
        obtain ⟨ha, hb, _, hd⟩ := assignGroup_spec _ _ _ _ _ _ _ _ _ _ _ h
        refine ⟨genCRLId cfg, 1, ?_, ?_, Or.inl ⟨genCRLId_not_mem_numberMap cfg, rfl⟩, ?_⟩
        · rw [ha]
          simp [alookup_aupsert_self]
        · intro d hdne
          rw [hb d hdne]
          simp only
          exact alookup_aupsert_ne _ _ _ _ hdne
        · rcases hd with hd | ⟨doc, hnum, hs⟩
          · exact Or.inl hd
          · right
            refine ⟨doc, ?_, hs⟩
            rw [hnum]
            simp [alookup_aupsert_self]
      · rw [if_neg hid] at h
        obtain ⟨ha, hb, _, hd⟩ := assignGroup_spec _ _ _ _ _ _ _ _ _ _ _ h
        exact ⟨scan.crlIdentifier, (alookup cfg.crlNumberMap scan.crlIdentifier).getD 0,
          ha, hb, Or.inr rfl, hd⟩

theorem int64Wrap_succ_of_lt_max (x : Int) (h1 : int64Min ≤ x) (h2 : x < int64Max) :
    int64Wrap (x + 1) = x + 1 := by
  unfold int64Wrap int64Min int64Max at *
  omega

theorem processOneGroup_step (b : Backend) (now : Int) (forceNew : Bool) (did : String)
    (un : List RevokedCertificate) (rm : List (String × List RevokedCertificate))
    (s : Storage) (cfg : localCRLConfigEntry) (g : List String) (s' : Storage)
    (cfg' : localCRLConfigEntry)
    (h : processOneGroup b now forceNew did un rm s cfg g = .ok (s', cfg')) :
    ∀ d n, alookup cfg.crlNumberMap d = some n →
      ∃ m, alookup cfg'.crlNumberMap d = some m ∧ crlCounterStep n m := by
  intro d n hd
  cases g with
  | nil =>
    simp only [processOneGroup, Except.ok.injEq, Prod.mk.injEq] at h
    rw [← h.2, hd]
    exact ⟨n, rfl, Or.inl rfl⟩
  | cons rep rest =>
    obtain ⟨c, base, h1, h2, h3, _⟩ :=
      processOneGroup_spec _ _ _ _ _ _ _ _ _ _ _ h (by simp)
    by_cases hdc : d = c
    · subst hdc
      rcases h3 with ⟨hnone, _⟩ | hbase
      · rw [hd] at hnone
        exact absurd hnone (by simp)
      · rw [hd] at hbase
        simp only [Option.getD_some] at hbase
        exact ⟨int64Wrap (base + 1), h1, Or.inr (by rw [hbase])⟩
    · rw [h2 d hdc, hd]
      exact ⟨n, rfl, Or.inl rfl⟩

theorem processGroups_steps (b : Backend) (now : Int) (forceNew : Bool) (did : String)
    (un : List RevokedCertificate) (rm : List (String × List RevokedCertificate)) :
    ∀ (groups : List (List String)) (s : Storage) (cfg : localCRLConfigEntry)
      (s' : Storage) (cfg' : localCRLConfigEntry),
      processGroups b now forceNew did un rm groups s cfg = (s', cfg', none) →
      ∀ d n, alookup cfg.crlNumberMap d = some n →
        ∃ m, alookup cfg'.crlNumberMap d = some m ∧
          Relation.ReflTransGen crlCounterStep n m := by
  intro groups
  induction groups with
  | nil =>
    intro s cfg s' cfg' h d n hd
    simp only [processGroups, Prod.mk.injEq] at h
    rw [← h.2.1, hd]
    exact ⟨n, rfl, Relation.ReflTransGen.refl⟩
  | cons g rest ih =>
    intro s cfg s' cfg' h d n hd
    unfold processGroups at h
    cases hone : processOneGroup b now forceNew did un rm s cfg g with
    | error e =>
      simp only [hone, Prod.mk.injEq] at h
      exact absurd h.2.2 (by simp)
    | ok pr =>
      simp only [hone] at h
      obtain ⟨m1, hm1, hstep1⟩ := processOneGroup_step _ _ _ _ _ _ _ _ _ _ _
        (by rw [hone]) d n hd
      obtain ⟨m2, hm2, hsteps2⟩ := ih _ _ _ _ h d m1 hm1
      exact ⟨m2, hm2, Relation.ReflTransGen.trans
        (Relation.ReflTransGen.single hstep1) hsteps2⟩

/-- C1 (amended): within one `buildCRLs` run, each processed group's CRL
identifier has its persisted sequence counter replaced by the wrapping int64
increment of its previous value — exactly base + 1 whenever the base sits
strictly below MaxInt64, wrapping to MinInt64 at MaxInt64, as Go's
`+= 1` on int64 does — independently of the resulting CRL content: a
freshly minted identifier starts with counter 1 and its first document
carries Number 1, an existing identifier's stored counter n yields a
document carrying n and a stored counter int64Wrap (n + 1), and no other
counter changes; across a whole successful `buildCRLs` run every counter
evolves only by such wrapped unit increments, so it never decreases unless
some intermediate value reaches MaxInt64. -/
theorem claim_C1_crl_sequence :
    (∀ (b : Backend) (now : Int) (forceNew : Bool) (did : String)
       (un : List RevokedCertificate) (rm : List (String × List RevokedCertificate))
       (s : Storage) (cfg : localCRLConfigEntry) (g : List String) (s' : Storage)
       (cfg' : localCRLConfigEntry),
      processOneGroup b now forceNew did un rm s cfg g = .ok (s', cfg') → g ≠ [] →
      ∃ c base,
        alookup cfg'.crlNumberMap c = some (int64Wrap (base + 1)) ∧
        (int64Min ≤ base → base < int64Max →
          alookup cfg'.crlNumberMap c = some (base + 1)) ∧
        (∀ d, d ≠ c → alookup cfg'.crlNumberMap d = alookup cfg.crlNumberMap d) ∧
        ((alookup cfg.crlNumberMap c = none ∧ base = 1) ∨
          base = (alookup cfg.crlNumberMap c).getD 0) ∧
        (s'.crls = s.crls ∨ ∃ doc : CRLDocument, doc.number = base ∧
          s'.crls = aupsert s.crls c doc)) ∧
    (∀ (b : Backend) (s : Storage) (forceNew : Bool) (now : Int) (s' : Storage),
      buildCRLs b s forceNew now = (s', none) →
      ∀ d n, alookup (getLocalCRLConfig s).crlNumberMap d = some n →
        ∃ m, alookup (getLocalCRLConfig s').crlNumberMap d = some m ∧
          Relation.ReflTransGen crlCounterStep n m) := by
  constructor
  · intro b now forceNew did un rm s cfg g s' cfg' h hg
    obtain ⟨c, base, ha, hb, hcase, hd⟩ := processOneGroup_spec _ _ _ _ _ _ _ _ _ _ _ h hg
    refine ⟨c, base, ha, ?_, hb, hcase, hd⟩
    intro hlo hhi
    rw [ha, int64Wrap_succ_of_lt_max base hlo hhi]
  · intro b s forceNew now s' h d n hd
    unfold buildCRLs at h
    cases hinfo : collectIssuerInfo s (listIssuers s) with
    | error e =>
      simp only [hinfo, Prod.mk.injEq] at h
      exact absurd h.2 (by simp)
    | ok info =>
      simp only [hinfo] at h
      cases hrc : getRevokedCertEntries s (info.map fun x => (x.1, x.2.2)) with
      | mk s1 res =>
        cases res with
        | error e =>
          simp only [hrc, Prod.mk.injEq] at h
          exact absurd h.2 (by simp)
        | ok pr =>
          obtain ⟨un, rm⟩ := pr
          simp only [hrc] at h
          cases hpg : processGroups b now forceNew (getIssuersConfig s).defaultIssuerId un rm
              ((groupByKeySubject info).map Prod.snd) s1 (getLocalCRLConfig s) with
          | mk s2 pr2 =>
            cases pr2 with
            | mk cfg2 err =>
              cases err with
              | some e =>
                simp only [hpg, Prod.mk.injEq] at h
                exact absurd h.2 (by simp)
              | none =>
                simp only [hpg, Prod.mk.injEq] at h
                obtain ⟨m, hm, hsteps⟩ := processGroups_steps _ _ _ _ _ _ _ _ _ _ _ hpg d n hd
                refine ⟨m, ?_, hsteps⟩
                rw [← h.1]
                simpa [setLocalCRLConfig, getLocalCRLConfig] using hm

/-- Counterexample to the original C1 reading: the persisted sequence
counter is not always advanced by one and can decrease, because Go's int64
`+= 1` wraps.  Over a store whose counter for "c0" stands at MaxInt64, a
successful `buildCRLs` run persists MinInt64 — strictly smaller. -/
theorem claim_C1_counterexample :
    alookup (getLocalCRLConfig sMaxC1).crlNumberMap "c0" = some int64Max ∧
    (buildCRLs bFix sMaxC1 false 10).2 = none ∧
    alookup (getLocalCRLConfig (buildCRLs bFix sMaxC1 false 10).1).crlNumberMap "c0"
      = some int64Min ∧
    int64Min < int64Max := by
  refine ⟨rfl, rfl, rfl, by decide⟩

/-- Witness for C1: a fresh identifier minted for the single group of `sFix`
(first document Number 1, stored counter 2), and a pre-existing counter 3
that a full successful `buildCRLs` run evolves only by wrapped unit
increments. -/
theorem claim_C1_witness :
    (∃ c base,
      alookup cfgC1out.crlNumberMap c = some (int64Wrap (base + 1)) ∧
      (int64Min ≤ base → base < int64Max →
        alookup cfgC1out.crlNumberMap c = some (base + 1)) ∧
      (∀ d, d ≠ c → alookup cfgC1out.crlNumberMap d =
        alookup (localCRLConfigEntry.mk [] []).crlNumberMap d) ∧
      ((alookup (localCRLConfigEntry.mk [] []).crlNumberMap c = none ∧ base = 1) ∨
        base = (alookup (localCRLConfigEntry.mk [] []).crlNumberMap c).getD 0) ∧
      (sC1groupOut.crls = sFix.crls ∨ ∃ doc : CRLDocument, doc.number = base ∧
        sC1groupOut.crls = aupsert sFix.crls c doc)) ∧
    (∃ m, alookup (getLocalCRLConfig (buildCRLs bFix sFixCfg false 10).1).crlNumberMap "c0"
        = some m ∧ Relation.ReflTransGen crlCounterStep 3 m) := by
  constructor
  · exact claim_C1_crl_sequence.1 bFix 10 false "" [] [] sFix ⟨[], []⟩ ["i"] sC1groupOut
      cfgC1out rfl (by simp)
  · exact claim_C1_crl_sequence.2 bFix sFixCfg false 10 (buildCRLs bFix sFixCfg false 10).1
      rfl "c0" 3 rfl

/-! ## Lemmas toward C10: the unassigned pool rides only on the default -/

theorem alookup_some_mem {α β : Type} [DecidableEq α] (l : List (α × β)) (k : α) (v : β)
    (h : alookup l k = some v) : (k, v) ∈ l := by
  induction l with
  | nil => simp [alookup] at h
  | cons hd tl ih =>
    simp only [alookup] at h
    by_cases he : hd.1 = k
    · rw [if_pos he] at h
      simp only [Option.some.injEq] at h
      have hp : (k, v) = hd := by
        rw [← he, ← h]
      rw [hp]
      exact List.mem_cons_self _ _
    · rw [if_neg he] at h
      exact List.mem_cons_of_mem _ (ih h)

theorem mem_aupsert {α β : Type} [DecidableEq α] (l : List (α × β)) (k : α) (v : β)
    (p : α × β) (h : p ∈ aupsert l k v) : p ∈ l ∨ p = (k, v) := by
  induction l with
  | nil =>
    simp only [aupsert, List.mem_singleton] at h
    exact Or.inr h
  | cons hd tl ih =>
    simp only [aupsert] at h
    by_cases he : hd.1 = k
    · rw [if_pos he] at h
      rcases List.mem_cons.mp h with h1 | h1
      · exact Or.inr h1
      · exact Or.inl (List.mem_cons_of_mem _ h1)
    · rw [if_neg he] at h
      rcases List.mem_cons.mp h with h1 | h1
      · exact Or.inl (by rw [h1]; exact List.mem_cons_self _ _)
      · rcases ih h1 with h2 | h2
        · exact Or.inl (List.mem_cons_of_mem _ h2)
        · exact Or.inr h2

theorem groupFold_mem_aux (L : List (String × issuerEntry × Certificate)) :
    ∀ (l : List (String × issuerEntry × Certificate))
      (gs : List ((String × String) × List String)),
      (∀ kb ∈ gs, ∀ i ∈ kb.2, ∃ x ∈ L, x.1 = i) →
      (∀ x ∈ l, x ∈ L) →
      ∀ kb ∈ l.foldl (fun gs x => addToGroup gs (x.2.1.keyId, x.2.2.rawIssuer) x.1) gs,
        ∀ i ∈ kb.2, ∃ x ∈ L, x.1 = i := by
  intro l
  induction l with
  | nil =>
    intro gs hgs hl kb hkb i hi
    exact hgs kb hkb i hi
  | cons y rest ih =>
    intro gs hgs hl kb hkb i hi
    refine ih _ ?_ (fun x hx => hl x (List.mem_cons_of_mem _ hx)) kb hkb i hi
    intro kb' hkb' i' hi'
    unfold addToGroup at hkb'
    rcases mem_aupsert _ _ _ _ hkb' with h1 | h1
    · exact hgs kb' h1 i' hi'
    · rw [h1] at hi'
      simp only at hi'
      rcases List.mem_append.mp hi' with h2 | h2
      · cases halo : alookup gs (y.2.1.keyId, y.2.2.rawIssuer) with
        | none => rw [halo] at h2; cases h2
        | some bucket =>
          rw [halo] at h2
          simp only [Option.getD_some] at h2
          exact hgs _ (alookup_some_mem _ _ _ halo) i' h2
      · simp only [List.mem_singleton] at h2
        rw [h2]
        exact ⟨y, hl y (List.mem_cons_self _ _), rfl⟩

theorem groupByKeySubject_mem (l : List (String × issuerEntry × Certificate))
    (g : List String) (hg : g ∈ (groupByKeySubject l).map Prod.snd)
    (i : String) (hi : i ∈ g) : ∃ x ∈ l, x.1 = i := by
  obtain ⟨kb, hkb, hkbg⟩ := List.mem_map.mp hg
  refine groupFold_mem_aux l l [] (by intro kb' h; cases h) (fun x hx => hx) kb ?_ i ?_
  · exact hkb
  · rw [hkbg]
    exact hi

theorem collectIssuerInfo_mem (s : Storage) :
    ∀ ids info, collectIssuerInfo s ids = .ok info →
      ∀ x ∈ info, fetchIssuerById s x.1 = .ok x.2.1 ∧ ¬ x.2.1.keyId.length = 0 := by
  intro ids
  induction ids with
  | nil =>
    intro info h x hx
    simp only [collectIssuerInfo, Except.ok.injEq] at h
    rw [← h] at hx
    cases hx
  | cons i rest ih =>
    intro info h x hx
    simp only [collectIssuerInfo] at h
    cases hf : fetchIssuerById s i with
    | error e =>
      simp only [hf] at h
      exact Except.noConfusion h
    | ok entry =>
      simp only [hf] at h
      by_cases hk : entry.keyId.length = 0
      · rw [if_pos hk] at h
        exact ih info h x hx
      · rw [if_neg hk] at h
        cases hc : getCertificate entry with
        | error e =>
          simp only [hc] at h
          exact Except.noConfusion h
        | ok cert =>
          simp only [hc] at h
          cases htl : collectIssuerInfo s rest with
          | error e =>
            simp only [htl] at h
            exact Except.noConfusion h
          | ok tail =>
            simp only [htl, Except.ok.injEq] at h
            rw [← h] at hx
            rcases List.mem_cons.mp hx with hx1 | hx1
            · rw [hx1]
              exact ⟨hf, hk⟩
            · exact ih tail htl x hx1

theorem groupScan_no_default (did : String) (un un' : List RevokedCertificate)
    (rm : List (String × List RevokedCertificate)) (m : List (String × String)) :
    ∀ (g : List String) (acc : GroupScan), (∀ i ∈ g, i ≠ did) →
      groupScan did un rm m g acc = groupScan did un' rm m g acc := by
  intro g
  induction g with
  | nil =>
    intro acc h
    rfl
  | cons i rest ih =>
    intro acc h
    have hne : i ≠ did := h i (List.mem_cons_self _ _)
    have hrest : ∀ j ∈ rest, j ≠ did := fun j hj => h j (List.mem_cons_of_mem _ hj)
    have hstep : scanDefaultStep did un i acc = scanDefaultStep did un' i acc := by
      simp [scanDefaultStep, if_neg hne]
    simp only [groupScan, hstep]
    cases halo : alookup m i with
    | none =>
      exact ih _ hrest
    | some cid =>
      dsimp only
      by_cases hl : 0 < cid.length
      · rw [if_pos hl, if_pos hl]
        by_cases hc : 0 < (scanBucketStep rm i
              (scanDefaultStep did un' i acc)).crlIdentifier.length ∧
            (scanBucketStep rm i (scanDefaultStep did un' i acc)).crlIdentifier ≠ cid
        · rw [if_pos hc, if_pos hc]
        · rw [if_neg hc, if_neg hc]
          exact ih _ hrest
      · rw [if_neg hl, if_neg hl]
        exact ih _ hrest

theorem processOneGroup_no_default (b : Backend) (now : Int) (forceNew : Bool)
    (did : String) (un : List RevokedCertificate)
    (rm : List (String × List RevokedCertificate)) (s : Storage)
    (cfg : localCRLConfigEntry) (g : List String) (h : ∀ i ∈ g, i ≠ did) :
    processOneGroup b now forceNew did un rm s cfg g =
    processOneGroup b now forceNew did [] rm s cfg g := by
  cases g with
  | nil => rfl
  | cons rep rest =>
    simp only [processOneGroup]
    rw [groupScan_no_default did un [] rm cfg.issuerIDCRLMap (rep :: rest) _ h]

theorem processGroups_no_default (b : Backend) (now : Int) (forceNew : Bool)
    (did : String) (un : List RevokedCertificate)
    (rm : List (String × List RevokedCertificate)) :
    ∀ (groups : List (List String)) (s : Storage) (cfg : localCRLConfigEntry),
      (∀ g ∈ groups, ∀ i ∈ g, i ≠ did) →
      processGroups b now forceNew did un rm groups s cfg =
      processGroups b now forceNew did [] rm groups s cfg := by
  intro groups
  induction groups with
  | nil =>
    intro s cfg h
    rfl
  | cons g rest ih =>
    intro s cfg h
    simp only [processGroups]
    rw [processOneGroup_no_default b now forceNew did un rm s cfg g
      (h g (List.mem_cons_self _ _))]
    cases processOneGroup b now forceNew did [] rm s cfg g with
    | error e => rfl
    | ok pr =>
      simp only []
      exact ih pr.1 pr.2 (fun g' hg' => h g' (List.mem_cons_of_mem _ hg'))

/-- C10: when there is no configured default issuer, or the configured
default has an empty key link (and is therefore excluded from grouping), the
group loop of `buildCRLs` behaves exactly as if the unassigned revoked pool
were empty — `buildCRLs` still proceeds, and unassigned revoked certificates
are placed on no CRL document at all. -/
theorem claim_C10_unassigned_dropped (b : Backend) (s : Storage) (forceNew : Bool)
    (now : Int) (info : List (String × issuerEntry × Certificate))
    (hinfo : collectIssuerInfo s (listIssuers s) = .ok info)
    (hdef : (getIssuersConfig s).defaultIssuerId = "" ∨
      (∃ ed, alookup s.issuers (getIssuersConfig s).defaultIssuerId = some (some ed) ∧
        ed.keyId = "")) :
    (∀ (un : List RevokedCertificate) (rm : List (String × List RevokedCertificate))
       (st : Storage) (cfg : localCRLConfigEntry),
      processGroups b now forceNew (getIssuersConfig s).defaultIssuerId un rm
        ((groupByKeySubject info).map Prod.snd) st cfg =
      processGroups b now forceNew (getIssuersConfig s).defaultIssuerId [] rm
        ((groupByKeySubject info).map Prod.snd) st cfg) ∧
    (∀ (s2 : Storage) (un : List RevokedCertificate)
       (rm : List (String × List RevokedCertificate)),
      getRevokedCertEntries s (info.map fun x => (x.1, x.2.2)) = (s2, .ok (un, rm)) →
      buildCRLs b s forceNew now =
        (match processGroups b now forceNew (getIssuersConfig s).defaultIssuerId [] rm
            ((groupByKeySubject info).map Prod.snd) s2 (getLocalCRLConfig s) with
         | (s3, _, some e) => (s3, some e)
         | (s3, cfg3, none) => (setLocalCRLConfig s3 cfg3, none))) := by
  have hnodef : ∀ g ∈ (groupByKeySubject info).map Prod.snd, ∀ i ∈ g,
      i ≠ (getIssuersConfig s).defaultIssuerId := by
    intro g hg i hi hieq
    obtain ⟨x, hx, hxi⟩ := groupByKeySubject_mem info g hg i hi
    obtain ⟨hfetch, hkid⟩ := collectIssuerInfo_mem s (listIssuers s) info hinfo x hx
    have hinv := fetchIssuerById_ok_inv _ _ _ hfetch
    rcases hdef with hd | ⟨ed, hed, hk⟩
    · rw [hxi, hieq, hd] at hinv
      exact hinv.2 rfl
    · rw [hxi, hieq] at hinv
      rw [hed] at hinv
      have : x.2.1 = ed := by
        have h1 := hinv.1
        simp only [Option.some.injEq] at h1
        exact h1.symm
      rw [this, hk] at hkid
      exact hkid rfl
  have hmain : ∀ (un : List RevokedCertificate)
      (rm : List (String × List RevokedCertificate)) (st : Storage)
      (cfg : localCRLConfigEntry),
      processGroups b now forceNew (getIssuersConfig s).defaultIssuerId un rm
        ((groupByKeySubject info).map Prod.snd) st cfg =
      processGroups b now forceNew (getIssuersConfig s).defaultIssuerId [] rm
        ((groupByKeySubject info).map Prod.snd) st cfg := by
    intro un rm st cfg
    exact processGroups_no_default b now forceNew _ un rm _ st cfg hnodef
  refine ⟨hmain, ?_⟩
  intro s2 un rm hrc
  unfold buildCRLs
  simp only [hinfo, hrc]
  rw [hmain un rm s2 (getLocalCRLConfig s)]

/-- Witness for C10: one issuer, no configured default, one orphaned revoked
certificate; the group loop runs identically with the orphan dropped, and
`buildCRLs` equals the run that never sees the orphan. -/
theorem claim_C10_witness :
    (processGroups bFix 10 false "" [⟨"dd", 5⟩] [] [["i"]] sC10 ⟨[], []⟩ =
      processGroups bFix 10 false "" [] [] [["i"]] sC10 ⟨[], []⟩) ∧
    buildCRLs bFix sC10 false 10 =
      (match processGroups bFix 10 false "" [] [] [["i"]] sC10 (getLocalCRLConfig sC10) with
       | (s3, _, some e) => (s3, some e)
       | (s3, cfg3, none) => (setLocalCRLConfig s3 cfg3, none)) := by
  have h := claim_C10_unassigned_dropped bFix sC10 false 10 [("i", issuerFix, certFix)]
    rfl (Or.inl rfl)
  exact ⟨h.1 [⟨"dd", 5⟩] [] sC10 ⟨[], []⟩, h.2 sC10 [⟨"dd", 5⟩] [] rfl⟩

/-! ## Lemmas toward C4: conflicting CRL-identifier assignments -/

theorem scanDefaultStep_ident (did : String) (un : List RevokedCertificate)
    (i : String) (acc : GroupScan) :
    (scanDefaultStep did un i acc).crlIdentifier = acc.crlIdentifier := by
  unfold scanDefaultStep
  split <;> rfl

theorem scanBucketStep_ident (rm : List (String × List RevokedCertificate))
    (i : String) (acc : GroupScan) :
    (scanBucketStep rm i acc).crlIdentifier = acc.crlIdentifier := by
  unfold scanBucketStep
  cases alookup rm i with
  | none => rfl
  | some tr =>
    dsimp only
    split <;> rfl

theorem groupScan_ident_frozen (did : String) (un : List RevokedCertificate)
    (rm : List (String × List RevokedCertificate)) (m : List (String × String)) :
    ∀ (g : List String) (acc : GroupScan) (res : GroupScan),
      groupScan did un rm m g acc = .ok res → 0 < acc.crlIdentifier.length →
      res.crlIdentifier = acc.crlIdentifier := by
  intro g
  induction g with
  | nil =>
    intro acc res h hpos
    simp only [groupScan, Except.ok.injEq] at h
    rw [← h]
  | cons i rest ih =>
    intro acc res h hpos
    have hacc2 : (scanBucketStep rm i (scanDefaultStep did un i acc)).crlIdentifier
        = acc.crlIdentifier := by
      rw [scanBucketStep_ident, scanDefaultStep_ident]
    simp only [groupScan] at h
    cases halo : alookup m i with
    | none =>
      simp only [halo] at h
      exact (ih _ _ h (by rw [hacc2]; exact hpos)).trans hacc2
    | some cid =>
      simp only [halo] at h
      by_cases hl : 0 < cid.length
      · rw [if_pos hl] at h
        by_cases hc : 0 < (scanBucketStep rm i
              (scanDefaultStep did un i acc)).crlIdentifier.length ∧
            (scanBucketStep rm i (scanDefaultStep did un i acc)).crlIdentifier ≠ cid
        · rw [if_pos hc] at h
          exact absurd h (by simp)
        · rw [if_neg hc] at h
          push_neg at hc
          have heq : acc.crlIdentifier = cid := by
            rw [← hacc2]
            exact hc (by rw [hacc2]; exact hpos)
          have hres := ih _ _ h (by simpa using hl)
          simp only at hres
          rw [hres, heq]
      · rw [if_neg hl] at h
        exact (ih _ _ h (by rw [hacc2]; exact hpos)).trans hacc2

theorem groupScan_ok_ident (did : String) (un : List RevokedCertificate)
    (rm : List (String × List RevokedCertificate)) (m : List (String × String)) :
    ∀ (g : List String) (acc res : GroupScan),
      groupScan did un rm m g acc = .ok res →
      ∀ i ∈ g, ∀ ci, alookup m i = some ci → 0 < ci.length →
        res.crlIdentifier = ci := by
  intro g
  induction g with
  | nil =>
    intro acc res h i hi
    cases hi
  | cons j rest ih =>
    intro acc res h i hi ci hci hpos
    simp only [groupScan] at h
    rcases List.mem_cons.mp hi with hij | hij
    · subst hij
      simp only [hci] at h
      rw [if_pos hpos] at h
      by_cases hc : 0 < (scanBucketStep rm i
            (scanDefaultStep did un i acc)).crlIdentifier.length ∧
          (scanBucketStep rm i (scanDefaultStep did un i acc)).crlIdentifier ≠ ci
      · rw [if_pos hc] at h
        exact absurd h (by simp)
      · rw [if_neg hc] at h
        have hres := groupScan_ident_frozen did un rm m rest _ _ h (by simpa using hpos)
        simpa using hres
    · cases halo : alookup m j with
      | none =>
        simp only [halo] at h
        exact ih _ _ h i hij ci hci hpos
      | some cj =>
        simp only [halo] at h
        by_cases hl : 0 < cj.length
        · rw [if_pos hl] at h
          by_cases hc : 0 < (scanBucketStep rm j
                (scanDefaultStep did un j acc)).crlIdentifier.length ∧
              (scanBucketStep rm j (scanDefaultStep did un j acc)).crlIdentifier ≠ cj
          · rw [if_pos hc] at h
            exact absurd h (by simp)
          · rw [if_neg hc] at h
            exact ih _ _ h i hij ci hci hpos
        · rw [if_neg hl] at h
          exact ih _ _ h i hij ci hci hpos

theorem groupScan_conflict_error (did : String) (un : List RevokedCertificate)
    (rm : List (String × List RevokedCertificate)) (m : List (String × String))
    (g : List String) (acc : GroupScan) (i1 i2 c1 c2 : String)
    (hi1 : i1 ∈ g) (hi2 : i2 ∈ g)
    (hc1 : alookup m i1 = some c1) (hl1 : 0 < c1.length)
    (hc2 : alookup m i2 = some c2) (hl2 : 0 < c2.length) (hcc : c1 ≠ c2) :
    ∃ e, groupScan did un rm m g acc = .error e := by
  cases hres : groupScan did un rm m g acc with
  | error e => exact ⟨e, rfl⟩
  | ok res =>
    have h1 := groupScan_ok_ident did un rm m g acc res hres i1 hi1 c1 hc1 hl1
    have h2 := groupScan_ok_ident did un rm m g acc res hres i2 hi2 c2 hc2 hl2
    exact absurd (h1.symm.trans h2) hcc

theorem foldl_aupsert_preserve (c : String) :
    ∀ (l : List String) (m : List (String × String)) (i : String), i ∉ l →
      alookup (l.foldl (fun m j => aupsert m j c) m) i = alookup m i := by
  intro l
  induction l with
  | nil =>
    intro m i h
    rfl
  | cons j rest ih =>
    intro m i h
    simp only [List.foldl]
    rw [ih _ _ (fun hh => h (List.mem_cons_of_mem _ hh))]
    exact alookup_aupsert_ne _ _ _ _
      (fun he => h (by rw [he]; exact List.mem_cons_self _ _))

theorem processOneGroup_outside (b : Backend) (now : Int) (forceNew : Bool) (did : String)
    (un : List RevokedCertificate) (rm : List (String × List RevokedCertificate))
    (s : Storage) (cfg : localCRLConfigEntry) (g : List String) (s' : Storage)
    (cfg' : localCRLConfigEntry)
    (h : processOneGroup b now forceNew did un rm s cfg g = .ok (s', cfg')) :
    ∀ i, i ∉ g → alookup cfg'.issuerIDCRLMap i = alookup cfg.issuerIDCRLMap i := by
  intro i hi
  cases g with
  | nil =>
    simp only [processOneGroup, Except.ok.injEq, Prod.mk.injEq] at h
    rw [← h.2]
  | cons rep rest =>
    unfold processOneGroup at h
    cases hscan : groupScan did un rm cfg.issuerIDCRLMap (rep :: rest)
        { revokedCerts := [], representative := rep, crlIdentifier := "", crlIdIssuer := "" } with
    | error e =>
      simp only [hscan] at h
      exact Except.noConfusion h
    | ok scan =>
      simp only [hscan] at h
      split at h <;>
      · have hmap := (assignGroup_spec _ _ _ _ _ _ _ _ _ _ _ h).2.2.1
        rw [hmap]
        exact foldl_aupsert_preserve _ _ _ _ hi

theorem processOneGroup_error_shape (b : Backend) (now : Int) (forceNew : Bool)
    (did : String) (un : List RevokedCertificate)
    (rm : List (String × List RevokedCertificate)) (s : Storage)
    (cfg : localCRLConfigEntry) (g : List String) (e : PkiError)
    (h : processOneGroup b now forceNew did un rm s cfg g = .error e) :
    ∃ msg, e = .goError msg := by
  have hscanShape : ∀ (gl : List String) (acc : GroupScan) (e' : PkiError),
      groupScan did un rm cfg.issuerIDCRLMap gl acc = .error e' → ∃ msg, e' = .goError msg := by
    intro gl
    induction gl with
    | nil =>
      intro acc e' h'
      simp [groupScan] at h'
    | cons j rest ih =>
      intro acc e' h'
      simp only [groupScan] at h'
      cases halo : alookup cfg.issuerIDCRLMap j with
      | none =>
        simp only [halo] at h'
        exact ih _ _ h'
      | some cj =>
        simp only [halo] at h'
        by_cases hl : 0 < cj.length
        · rw [if_pos hl] at h'
          by_cases hc : 0 < (scanBucketStep rm j
                (scanDefaultStep did un j acc)).crlIdentifier.length ∧
              (scanBucketStep rm j (scanDefaultStep did un j acc)).crlIdentifier ≠ cj
          · rw [if_pos hc] at h'
            simp only [Except.error.injEq] at h'
            exact ⟨_, h'.symm⟩
          · rw [if_neg hc] at h'
            exact ih _ _ h'
        · rw [if_neg hl] at h'
          exact ih _ _ h'
  cases g with
  | nil => simp [processOneGroup] at h
  | cons rep rest =>
    unfold processOneGroup at h
    cases hscan : groupScan did un rm cfg.issuerIDCRLMap (rep :: rest)
        { revokedCerts := [], representative := rep, crlIdentifier := "", crlIdIssuer := "" } with
    | error e' =>
      simp only [hscan, Except.error.injEq] at h
      rw [← h]
      exact hscanShape _ _ _ hscan
    | ok scan =>
      simp only [hscan] at h
      split at h <;>
      · unfold assignGroup at h
        cases hb : buildCRL b s forceNew scan.representative scan.revokedCerts _ _ now with
        | error e2 =>
          rw [hb] at h
          simp only [Except.error.injEq] at h
          exact ⟨_, h.symm⟩
        | ok s2 =>
          rw [hb] at h
          exact absurd h (by simp)

theorem count_singleton_ite (i j : String) : [j].count i = if j = i then 1 else 0 := by
  by_cases h : j = i
  · subst h
    simp
  · rw [if_neg h]
    exact List.count_eq_zero.mpr (by simp [Ne.symm h])

theorem addToGroup_cons_hit (k : String × String) (v' : List String)
    (rest : List ((String × String) × List String)) (j : String) :
    addToGroup ((k, v') :: rest) k j = (k, v' ++ [j]) :: rest := by
  simp [addToGroup, alookup, aupsert]

theorem addToGroup_cons_miss (k k' : String × String) (hk : k' ≠ k) (v' : List String)
    (rest : List ((String × String) × List String)) (j : String) :
    addToGroup ((k', v') :: rest) k j = (k', v') :: addToGroup rest k j := by
  simp [addToGroup, alookup, aupsert, hk]

theorem addToGroup_join_count (i j : String) (k : String × String) :
    ∀ gs : List ((String × String) × List String),
      (((addToGroup gs k j).map Prod.snd).flatten).count i
        = ((gs.map Prod.snd).flatten).count i + (if j = i then 1 else 0) := by
  intro gs
  induction gs with
  | nil =>
    have h0 : ((addToGroup [] k j).map Prod.snd).flatten = [j] := rfl
    rw [h0, count_singleton_ite]
    simp
  | cons hd rest ih =>
    obtain ⟨k', v'⟩ := hd
    by_cases hk : k' = k
    · subst hk
      rw [addToGroup_cons_hit]
      simp only [List.map_cons, List.flatten_cons, List.count_append, count_singleton_ite]
      omega
    · rw [addToGroup_cons_miss k k' hk]
      simp only [List.map_cons, List.flatten_cons, List.count_append, ih]
      omega

theorem groupFold_join_count (i : String) :
    ∀ (l : List (String × issuerEntry × Certificate))
      (gs : List ((String × String) × List String)),
      ((((l.foldl (fun gs x => addToGroup gs (x.2.1.keyId, x.2.2.rawIssuer) x.1) gs)).map
          Prod.snd).flatten).count i
        = ((gs.map Prod.snd).flatten).count i + (l.map Prod.fst).count i := by
  intro l
  induction l with
  | nil =>
    intro gs
    simp
  | cons x rest ih =>
    intro gs
    simp only [List.foldl_cons, List.map_cons]
    rw [ih, addToGroup_join_count]
    by_cases h : x.1 = i
    · subst h
      have hite : (if x.1 = x.1 then 1 else 0) = 1 := if_pos rfl
      rw [List.count_cons_self, hite]
      omega
    · rw [if_neg h, List.count_cons_of_ne (fun he => h he.symm)]
      omega

theorem collectIssuerInfo_sublist (s : Storage) :
    ∀ (ids : List String) (info : List (String × issuerEntry × Certificate)),
      collectIssuerInfo s ids = .ok info → (info.map Prod.fst).Sublist ids := by
  intro ids
  induction ids with
  | nil =>
    intro info h
    simp only [collectIssuerInfo, Except.ok.injEq] at h
    rw [← h]
    simp
  | cons issuer rest ih =>
    intro info h
    simp only [collectIssuerInfo] at h
    cases hf : fetchIssuerById s issuer with
    | error e =>
      simp only [hf] at h
      exact Except.noConfusion h
    | ok entry =>
      simp only [hf] at h
      by_cases hk : entry.keyId.length = 0
      · rw [if_pos hk] at h
        exact (ih info h).cons _
      · rw [if_neg hk] at h
        cases hc : getCertificate entry with
        | error e =>
          simp only [hc] at h
          exact Except.noConfusion h
        | ok cert =>
          simp only [hc] at h
          cases ht : collectIssuerInfo s rest with
          | error e =>
            simp only [ht] at h
            exact Except.noConfusion h
          | ok tail =>
            simp only [ht, Except.ok.injEq] at h
            rw [← h]
            simp only [List.map_cons]
            exact (ih tail ht).cons₂ _

theorem group_split_disjoint (info : List (String × issuerEntry × Certificate))
    (hnd : (info.map Prod.fst).Nodup)
    (gs₁ : List (List String)) (g : List String) (gs₂ : List (List String))
    (hsplit : (groupByKeySubject info).map Prod.snd = gs₁ ++ g :: gs₂)
    (i : String) (hi : i ∈ g) : ∀ g' ∈ gs₁, i ∉ g' := by
  have hcount : (((groupByKeySubject info).map Prod.snd).flatten).count i
      = (info.map Prod.fst).count i := by
    have h := groupFold_join_count i info []
    simpa [groupByKeySubject] using h
  have hle : (info.map Prod.fst).count i ≤ 1 := List.nodup_iff_count_le_one.mp hnd i
  rw [hsplit] at hcount
  intro g' hg' hig'
  have h1 : 0 < (gs₁.flatten).count i :=
    List.count_pos_iff.mpr (List.mem_flatten.mpr ⟨g', hg', hig'⟩)
  have h2 : 0 < g.count i := List.count_pos_iff.mpr hi
  have hsumeq : ((gs₁ ++ g :: gs₂).flatten).count i
      = (gs₁.flatten).count i + (g.count i + ((gs₂.flatten)).count i) := by
    rw [List.flatten_append, List.count_append, List.flatten_cons, List.count_append]
  omega

theorem getRevokedCertEntriesLoop_localCRLConfig (certMap : List (String × Certificate)) :
    ∀ (serials : List String) (s : Storage) (un : List RevokedCertificate)
      (rm : List (String × List RevokedCertificate))
      (res : Storage ×
        Except PkiError (List RevokedCertificate × List (String × List RevokedCertificate))),
      getRevokedCertEntriesLoop certMap serials s un rm = res →
      res.1.localCRLConfig = s.localCRLConfig := by
  intro serials
  induction serials with
  | nil =>
    intro s un rm res h
    rw [← h]
    rfl
  | cons serial rest ih =>
    intro s un rm res h
    unfold getRevokedCertEntriesLoop at h
    cases hrev : alookup s.revoked serial with
    | none =>
      simp only [hrev] at h
      rw [← h]
    | some ov =>
      cases ov with
      | none =>
        simp only [hrev] at h
        rw [← h]
      | some revInfo =>
        simp only [hrev] at h
        cases hcb : revInfo.certificateBytes with
        | none =>
          simp only [hcb] at h
          rw [← h]
        | some revokedCert =>
          simp only [hcb] at h
          split at h
          · exact ih _ _ _ _ h
          · cases hfp : findParent revokedCert certMap with
            | none =>
              simp only [hfp] at h
              exact ih _ _ _ _ h
            | some issuerId =>
              simp only [hfp] at h
              rw [ih _ _ _ _ h]

theorem getRevokedCertEntriesLoop_error_shape (certMap : List (String × Certificate)) :
    ∀ (serials : List String) (s : Storage) (un : List RevokedCertificate)
      (rm : List (String × List RevokedCertificate))
      (res : Storage ×
        Except PkiError (List RevokedCertificate × List (String × List RevokedCertificate)))
      (e : PkiError),
      getRevokedCertEntriesLoop certMap serials s un rm = res →
      res.2 = .error e → ∃ m, e = .internalError m := by
  intro serials
  induction serials with
  | nil =>
    intro s un rm res e h h2
    rw [← h] at h2
    exact Except.noConfusion h2
  | cons serial rest ih =>
    intro s un rm res e h h2
    unfold getRevokedCertEntriesLoop at h
    cases hrev : alookup s.revoked serial with
    | none =>
      simp only [hrev] at h
      rw [← h] at h2
      exact ⟨_, (Except.error.inj h2).symm⟩
    | some ov =>
      cases ov with
      | none =>
        simp only [hrev] at h
        rw [← h] at h2
        exact ⟨_, (Except.error.inj h2).symm⟩
      | some revInfo =>
        simp only [hrev] at h
        cases hcb : revInfo.certificateBytes with
        | none =>
          simp only [hcb] at h
          rw [← h] at h2
          exact ⟨_, (Except.error.inj h2).symm⟩
        | some revokedCert =>
          simp only [hcb] at h
          split at h
          · exact ih _ _ _ _ _ h h2
          · cases hfp : findParent revokedCert certMap with
            | none =>
              simp only [hfp] at h
              exact ih _ _ _ _ _ h h2
            | some issuerId =>
              simp only [hfp] at h
              exact ih _ _ _ _ _ h h2

theorem buildCRL_localCRLConfig (b : Backend) (s : Storage) (forceNew : Bool)
    (tid : String) (rev : List RevokedCertificate) (ident : String) (num : Int)
    (now : Int) (s' : Storage)
    (h : buildCRL b s forceNew tid rev ident num now = .ok s') :
    s'.localCRLConfig = s.localCRLConfig := by
  rcases buildCRL_ok_cases _ _ _ _ _ _ _ _ _ h with hss | ⟨doc, _, hs⟩
  · rw [hss]
  · rw [hs]

theorem processOneGroup_localCRLConfig (b : Backend) (now : Int) (forceNew : Bool)
    (did : String) (un : List RevokedCertificate)
    (rm : List (String × List RevokedCertificate)) (s : Storage)
    (cfg : localCRLConfigEntry) (g : List String) (s' : Storage)
    (cfg' : localCRLConfigEntry)
    (h : processOneGroup b now forceNew did un rm s cfg g = .ok (s', cfg')) :
    s'.localCRLConfig = s.localCRLConfig := by
  cases g with
  | nil =>
    simp only [processOneGroup, Except.ok.injEq, Prod.mk.injEq] at h
    rw [← h.1]
  | cons rep rest =>
    unfold processOneGroup at h
    cases hscan : groupScan did un rm cfg.issuerIDCRLMap (rep :: rest)
        { revokedCerts := [], representative := rep, crlIdentifier := "", crlIdIssuer := "" } with
    | error e =>
      simp only [hscan] at h
      exact Except.noConfusion h
    | ok scan =>
      simp only [hscan] at h
      split at h <;>
      · unfold assignGroup at h
        cases hb : buildCRL b s forceNew scan.representative scan.revokedCerts _ _ now with
        | error e2 =>
          rw [hb] at h
          exact Except.noConfusion h
        | ok s2 =>
          rw [hb] at h
          simp only [Except.ok.injEq, Prod.mk.injEq] at h
          rw [← h.1]
          exact buildCRL_localCRLConfig _ _ _ _ _ _ _ _ _ hb

theorem processGroups_localCRLConfig (b : Backend) (now : Int) (forceNew : Bool)
    (did : String) (un : List RevokedCertificate)
    (rm : List (String × List RevokedCertificate)) :
    ∀ (groups : List (List String)) (s : Storage) (cfg : localCRLConfigEntry),
      (processGroups b now forceNew did un rm groups s cfg).1.localCRLConfig
        = s.localCRLConfig := by
  intro groups
  induction groups with
  | nil =>
    intro s cfg
    rfl
  | cons g rest ih =>
    intro s cfg
    unfold processGroups
    cases hone : processOneGroup b now forceNew did un rm s cfg g with
    | error e => rfl
    | ok pr =>
      dsimp only
      rw [ih]
      exact processOneGroup_localCRLConfig _ _ _ _ _ _ _ _ _ _ _
        (by rw [hone])

theorem processGroups_conflict (b : Backend) (now : Int) (forceNew : Bool) (did : String)
    (un : List RevokedCertificate) (rm : List (String × List RevokedCertificate))
    (g : List String) (gs₂ : List (List String)) (i1 i2 c1 c2 : String)
    (hi1 : i1 ∈ g) (hi2 : i2 ∈ g) (hcc : c1 ≠ c2)
    (hl1 : 0 < c1.length) (hl2 : 0 < c2.length) :
    ∀ (gs₁ : List (List String)) (st : Storage) (cfg : localCRLConfigEntry),
      (∀ g' ∈ gs₁, i1 ∉ g') → (∀ g' ∈ gs₁, i2 ∉ g') →
      alookup cfg.issuerIDCRLMap i1 = some c1 →
      alookup cfg.issuerIDCRLMap i2 = some c2 →
      ∃ msg, processGroups b now forceNew did un rm (gs₁ ++ g :: gs₂) st cfg =
        ((processGroups b now forceNew did un rm gs₁ st cfg).1,
         (processGroups b now forceNew did un rm gs₁ st cfg).2.1,
         some (.goError msg)) := by
  intro gs₁
  induction gs₁ with
  | nil =>
    intro st cfg _ _ hm1 hm2
    cases g with
    | nil => cases hi1
    | cons rep rest =>
      obtain ⟨e, he⟩ := groupScan_conflict_error did un rm cfg.issuerIDCRLMap (rep :: rest)
        { revokedCerts := [], representative := rep, crlIdentifier := "", crlIdIssuer := "" }
        i1 i2 c1 c2 hi1 hi2 hm1 hl1 hm2 hl2 hcc
      have hone : processOneGroup b now forceNew did un rm st cfg (rep :: rest) = .error e := by
        unfold processOneGroup
        simp only [he]
      obtain ⟨msg, hmsg⟩ := processOneGroup_error_shape _ _ _ _ _ _ _ _ _ _ hone
      refine ⟨msg, ?_⟩
      simp only [List.nil_append, processGroups, hone, hmsg]
  | cons g' rest ih =>
    intro st cfg hd1 hd2 hm1 hm2
    cases hone : processOneGroup b now forceNew did un rm st cfg g' with
    | error e =>
      obtain ⟨msg, hmsg⟩ := processOneGroup_error_shape _ _ _ _ _ _ _ _ _ _ hone
      refine ⟨msg, ?_⟩
      simp only [List.cons_append, processGroups, hone, hmsg]
    | ok pr =>
      obtain ⟨s', cfg'⟩ := pr
      have h1 : alookup cfg'.issuerIDCRLMap i1 = some c1 := by
        rw [processOneGroup_outside _ _ _ _ _ _ _ _ _ _ _ hone i1
          (hd1 g' (List.mem_cons_self _ _))]
        exact hm1
      have h2 : alookup cfg'.issuerIDCRLMap i2 = some c2 := by
        rw [processOneGroup_outside _ _ _ _ _ _ _ _ _ _ _ hone i2
          (hd2 g' (List.mem_cons_self _ _))]
        exact hm2
      obtain ⟨msg, hmsg⟩ := ih s' cfg'
        (fun x hx => hd1 x (List.mem_cons_of_mem _ hx))
        (fun x hx => hd2 x (List.mem_cons_of_mem _ hx)) h1 h2
      refine ⟨msg, ?_⟩
      simp only [List.cons_append, processGroups, hone]
      exact hmsg

/-- C4: during `buildCRLs`, when two issuers of the same (key id, subject)
group are already mapped to two different nonempty CRL identifiers in the
cluster-local CRL configuration, the run fails with a non-user-attributable
error, the persisted cluster-local CRL configuration record is left
untouched (the updated singleton is never written), and the resulting
storage is exactly the state reached after the groups preceding the
conflicting one — in particular no CRL document is written for the
conflicting group. -/
theorem claim_C4_conflicting_crl_ids (b : Backend) (s : Storage) (forceNew : Bool)
    (now : Int) (info : List (String × issuerEntry × Certificate))
    (gs₁ : List (List String)) (g : List String) (gs₂ : List (List String))
    (i1 i2 c1 c2 : String)
    (hnd : (s.issuers.map Prod.fst).Nodup)
    (hinfo : collectIssuerInfo s (listIssuers s) = .ok info)
    (hsplit : (groupByKeySubject info).map Prod.snd = gs₁ ++ g :: gs₂)
    (hi1 : i1 ∈ g) (hi2 : i2 ∈ g)
    (hc1 : alookup (getLocalCRLConfig s).issuerIDCRLMap i1 = some c1)
    (hc2 : alookup (getLocalCRLConfig s).issuerIDCRLMap i2 = some c2)
    (hl1 : 0 < c1.length) (hl2 : 0 < c2.length) (hcc : c1 ≠ c2) :
    (∃ e, (buildCRLs b s forceNew now).2 = some e ∧ ∀ m, e ≠ PkiError.userError m) ∧
    (buildCRLs b s forceNew now).1.localCRLConfig = s.localCRLConfig ∧
    (∀ s1 un rm,
      getRevokedCertEntries s (info.map fun x => (x.1, x.2.2)) = (s1, .ok (un, rm)) →
      (buildCRLs b s forceNew now).1 =
        (processGroups b now forceNew (getIssuersConfig s).defaultIssuerId un rm gs₁ s1
          (getLocalCRLConfig s)).1) := by
  have hndinfo : (info.map Prod.fst).Nodup :=
    List.Nodup.sublist (collectIssuerInfo_sublist s (listIssuers s) info hinfo) hnd
  have hd1 : ∀ g' ∈ gs₁, i1 ∉ g' := group_split_disjoint info hndinfo gs₁ g gs₂ hsplit i1 hi1
  have hd2 : ∀ g' ∈ gs₁, i2 ∉ g' := group_split_disjoint info hndinfo gs₁ g gs₂ hsplit i2 hi2
  cases hrc : getRevokedCertEntries s (info.map fun x => (x.1, x.2.2)) with
  | mk s1 res =>
    cases res with
    | error e =>
      have hrc' : getRevokedCertEntriesLoop (info.map fun x => (x.1, x.2.2))
          (s.revoked.map Prod.fst) s [] [] = (s1, .error e) := hrc
      have hb : buildCRLs b s forceNew now = (s1, some e) := by
        unfold buildCRLs
        simp only [hinfo, hrc]
      obtain ⟨m0, hm0⟩ := getRevokedCertEntriesLoop_error_shape
        (info.map fun x => (x.1, x.2.2)) (s.revoked.map Prod.fst) s [] [] (s1, .error e) e
        hrc' rfl
      refine ⟨⟨e, by rw [hb], ?_⟩, ?_, ?_⟩
      · rw [hm0]
        exact fun m hx => PkiError.noConfusion hx
      · rw [hb]
        exact getRevokedCertEntriesLoop_localCRLConfig _ _ _ _ _ _ hrc'
      · intro s2 un rm hok
        exact absurd hok (by simp)
    | ok pr =>
      obtain ⟨un, rm⟩ := pr
      obtain ⟨msg, hpg⟩ := processGroups_conflict b now forceNew
        (getIssuersConfig s).defaultIssuerId un rm g gs₂ i1 i2 c1 c2 hi1 hi2 hcc hl1 hl2
        gs₁ s1 (getLocalCRLConfig s) hd1 hd2 hc1 hc2
      have hb : buildCRLs b s forceNew now =
          ((processGroups b now forceNew (getIssuersConfig s).defaultIssuerId un rm gs₁ s1
            (getLocalCRLConfig s)).1, some (.goError msg)) := by
        unfold buildCRLs
        simp only [hinfo, hrc, hsplit, hpg]
      have hrc' : getRevokedCertEntriesLoop (info.map fun x => (x.1, x.2.2))
          (s.revoked.map Prod.fst) s [] [] = (s1, .ok (un, rm)) := hrc
      have hs1cfg : s1.localCRLConfig = s.localCRLConfig :=
        getRevokedCertEntriesLoop_localCRLConfig _ _ _ _ _ _ hrc'
      refine ⟨⟨.goError msg, by rw [hb], fun m hx => PkiError.noConfusion hx⟩, ?_, ?_⟩
      · rw [hb]
        rw [processGroups_localCRLConfig]
        exact hs1cfg
      · intro s2 un' rm' hok
        simp only [Prod.mk.injEq, Except.ok.injEq] at hok
        obtain ⟨h1, h2, h3⟩ := hok
        subst h1
        subst h2
        subst h3
        rw [hb]

/-- Witness for C4: over `storC4`, whose single (key id, subject) group
["i", "i2"] carries the conflicting pre-existing identifiers "ca" and "cb",
`buildCRLs` fails with a non-user-attributable error and leaves the stored
cluster-local CRL configuration untouched. -/
theorem claim_C4_witness :
    (∃ e, (buildCRLs bFix storC4 false 10).2 = some e ∧ ∀ m, e ≠ PkiError.userError m) ∧
    (buildCRLs bFix storC4 false 10).1.localCRLConfig = storC4.localCRLConfig ∧
    (∀ s1 un rm,
      getRevokedCertEntries storC4 (infoC4.map fun x => (x.1, x.2.2)) = (s1, .ok (un, rm)) →
      (buildCRLs bFix storC4 false 10).1 =
        (processGroups bFix 10 false (getIssuersConfig storC4).defaultIssuerId un rm [] s1
          (getLocalCRLConfig storC4)).1) :=
  claim_C4_conflicting_crl_ids bFix storC4 false 10 infoC4 [] ["i", "i2"] [] "i" "i2" "ca" "cb"
    (by decide) rfl rfl (by decide) (by decide) rfl rfl (by decide) (by decide) (by decide)

end VaultPki

